import Mathlib

/-!
Verification development for the slim2Diretta audio player.

The definitions below are shallow embeddings of the C++ sources:
bytes are modelled as Nat (values 0..255 on the wire), machine
integers as Nat with explicit reductions mod 2^w where the code
truncates, and each C++ function is translated into a pure Lean
function over explicit state records.
-/


namespace Slim2Diretta

/-- Big-endian 16-bit serialization of a machine integer (htons + memcpy). -/
def be16 (n : Nat) : List Nat :=
  [n / 2 ^ 8 % 256, n % 256]

/-- Big-endian 32-bit serialization of a machine integer (htonl + memcpy). -/
def be32 (n : Nat) : List Nat :=
  [n / 2 ^ 24 % 256, n / 2 ^ 16 % 256, n / 2 ^ 8 % 256, n % 256]

/-- Read a big-endian 16-bit integer from a byte list at an offset (ntohs). -/
def readBE16 (d : List Nat) (off : Nat) : Nat :=
  d.getD off 0 * 2 ^ 8 + d.getD (off + 1) 0

/-- Read a big-endian 32-bit integer from a byte list at an offset (ntohl). -/
def readBE32 (d : List Nat) (off : Nat) : Nat :=
  d.getD off 0 * 2 ^ 24 + d.getD (off + 1) 0 * 2 ^ 16 +
  d.getD (off + 2) 0 * 2 ^ 8 + d.getD (off + 3) 0

/-- Read a little-endian 16-bit integer from a byte list at an offset. -/
def readLE16 (d : List Nat) (off : Nat) : Nat :=
  d.getD off 0 + d.getD (off + 1) 0 * 2 ^ 8

/-- Read a little-endian 32-bit integer from a byte list at an offset. -/
def readLE32 (d : List Nat) (off : Nat) : Nat :=
  d.getD off 0 + d.getD (off + 1) 0 * 2 ^ 8 +
  d.getD (off + 2) 0 * 2 ^ 16 + d.getD (off + 3) 0 * 2 ^ 24

/-- Read a little-endian 64-bit integer from a byte list at an offset. -/
def readLE64 (d : List Nat) (off : Nat) : Nat :=
  readLE32 d off + readLE32 d (off + 4) * 2 ^ 32

/-- Read a big-endian 64-bit integer from a byte list at an offset. -/
def readBE64 (d : List Nat) (off : Nat) : Nat :=
  readBE32 d off * 2 ^ 32 + readBE32 d (off + 4)

/-- Interpret an unsigned value of the given bit width as a two's-complement
signed integer (sign extension). -/
def toSigned (bits : Nat) (n : Nat) : Int :=
  if n < 2 ^ (bits - 1) then (n : Int) else (n : Int) - 2 ^ bits

-- ==========================================================
-- SlimprotoMessages.h / SlimprotoClient.cpp
-- ==========================================================

/-- Status counters of SlimprotoClient that sendStat snapshots
(the atomics m_bytesReceived, m_streamBufSize, ..., plus getJiffies). -/
structure SlimState where
  bytesReceived : Nat
  streamBufSize : Nat
  streamBufFull : Nat
  outputBufSize : Nat
  outputBufFull : Nat
  elapsedSeconds : Nat
  elapsedMs : Nat
  jiffies : Nat
  deriving Repr, DecidableEq

/-- SlimprotoClient::sendStat: the STAT payload bytes as assembled from the
StatPayload struct (packed layout of SlimprotoMessages.h) and sent with
sendMessage("STAT", &stat, sizeof(stat)). The event code is a char[4]. -/
def sendStatPayload (s : SlimState) (e0 e1 e2 e3 : Nat) (serverTimestamp : Nat) :
    List Nat :=
  [e0, e1, e2, e3] ++ [0, 0, 0] ++
  be32 s.streamBufSize ++ be32 s.streamBufFull ++
  be32 (s.bytesReceived / 2 ^ 32 % 2 ^ 32) ++ be32 (s.bytesReceived % 2 ^ 32) ++
  be16 0xFFFF ++ be32 s.jiffies ++
  be32 s.outputBufSize ++ be32 s.outputBufFull ++
  be32 s.elapsedSeconds ++ be16 0 ++
  be32 s.elapsedMs ++ be32 serverTimestamp ++ be16 0

/-- StrmCommand (24-byte packed wire struct). Multi-byte fields are kept
here already in host order, i.e. the record stores what the accessors
getReplayGain, getServerPort and getServerIp return. -/
structure StrmCommand where
  command : Nat
  autostart : Nat
  format : Nat
  pcmSampleSize : Nat
  pcmSampleRate : Nat
  pcmChannels : Nat
  pcmEndian : Nat
  threshold : Nat
  spdifEnable : Nat
  transPeriod : Nat
  transType : Nat
  flags : Nat
  outputThreshold : Nat
  reserved : Nat
  replayGainOrInterval : Nat
  serverPort : Nat
  serverIp : Nat
  deriving Repr, DecidableEq

/-- Decode the 24-byte StrmCommand header from the payload bytes
(memcpy of the packed struct followed by the byte-order accessors). -/
def strmParse (d : List Nat) : StrmCommand where
  command := d.getD 0 0
  autostart := d.getD 1 0
  format := d.getD 2 0
  pcmSampleSize := d.getD 3 0
  pcmSampleRate := d.getD 4 0
  pcmChannels := d.getD 5 0
  pcmEndian := d.getD 6 0
  threshold := d.getD 7 0
  spdifEnable := d.getD 8 0
  transPeriod := d.getD 9 0
  transType := d.getD 10 0
  flags := d.getD 11 0
  outputThreshold := d.getD 12 0
  reserved := d.getD 13 0
  replayGainOrInterval := readBE32 d 14
  serverPort := readBE16 d 18
  serverIp := readBE32 d 20

/-- Utility sampleRateFromCode of SlimprotoMessages.h (codes are ASCII). -/
def sampleRateFromCode (code : Nat) : Nat :=
  if code = 48 then 11025
  else if code = 49 then 22050
  else if code = 50 then 32000
  else if code = 51 then 44100
  else if code = 52 then 48000
  else if code = 53 then 8000
  else if code = 54 then 12000
  else if code = 55 then 16000
  else if code = 56 then 24000
  else if code = 57 then 96000
  else 0

/-- Utility sampleSizeFromCode of SlimprotoMessages.h. -/
def sampleSizeFromCode (code : Nat) : Nat :=
  if code = 48 then 8
  else if code = 49 then 16
  else if code = 50 then 20
  else if code = 51 then 24
  else if code = 52 then 32
  else 0

/-- Channel-count mapping applied to StrmCommand.pcmChannels by the stream
callback in main.cpp: ASCII 50 is stereo, ASCII 49 is mono, else unknown. -/
def channelsFromPcmCode (code : Nat) : Nat :=
  if code = 50 then 2 else if code = 49 then 1 else 0

/-- SlimprotoClient::handleStrm. Observable effects are modelled as the
pair (STAT payloads sent, stream-callback invocations with their
StrmCommand and HTTP request suffix). ASCII sub-commands:
115 s, 113 q, 112 p, 117 u, 102 f, 116 t, 97 a. -/
def handleStrm (s : SlimState) (d : List Nat) :
    List (List Nat) × List (StrmCommand × List Nat) :=
  if d.length < 24 then ([], [])
  else
    let cmd := strmParse d
    let httpRequest := d.drop 24
    if cmd.command = 115 then ([], [(cmd, httpRequest)])
    else if cmd.command = 113 then ([], [(cmd, httpRequest)])
    else if cmd.command = 112 then ([], [(cmd, httpRequest)])
    else if cmd.command = 117 then ([], [(cmd, httpRequest)])
    else if cmd.command = 102 then ([], [(cmd, httpRequest)])
    else if cmd.command = 116 then
      ([sendStatPayload s 83 84 77 116 cmd.replayGainOrInterval], [])
    else if cmd.command = 97 then ([], [(cmd, httpRequest)])
    else ([], [])

/-- Round-trip of the 32-bit serializer: reading back a be32 field yields
the stored value reduced to 32 bits. -/
theorem readBE32_be32 (n : Nat) : readBE32 (be32 n) 0 = n % 2 ^ 32 := by
  simp [readBE32, be32, List.getD]
  omega

/-- Concrete strm-s payload of scenario S5: ten header characters, ten zero
bytes, then 23 28 00 00, followed by an HTTP request text. -/
def strmS5Bytes : List Nat :=
  [0x73, 0x31, 0x66, 0x33, 0x33, 0x32, 0x30, 0x20, 0x20, 0x20] ++
  List.replicate 10 0 ++ [0x23, 0x28, 0, 0]

/-- Example HTTP request suffix bytes ("GET "). -/
def strmS5Http : List Nat := [71, 69, 84, 32]

/-- A concrete SlimState used for closed evaluations. -/
def slimState0 : SlimState :=
  { bytesReceived := 0, streamBufSize := 0, streamBufFull := 0,
    outputBufSize := 0, outputBufFull := 0, elapsedSeconds := 0,
    elapsedMs := 0, jiffies := 0 }

/-- C1 counterexample: the STAT payload assembled by sendStat is not
57 bytes long (sizeof(StatPayload) is 53, as the source asserts). -/
theorem stat_payload_not_57 :
    (sendStatPayload slimState0 83 84 77 116 0).length = 53 ∧ (53 : Nat) ≠ 57 :=
  ⟨by simp [sendStatPayload, be32, be16, slimState0], by decide⟩

/-- C1 (amended): every STAT payload sent by the Slimproto client is exactly
53 bytes, laid out as 4-byte event code, three reserved bytes, stream-buffer
size and fullness (u32), 64-bit bytes-received split into two u32, signal
strength u16 (0xFFFF), jiffies u32, output-buffer size and fullness (u32),
elapsed seconds u32, voltage u16 (0), elapsed ms u32, server-timestamp echo
u32, error code u16 (0). -/
theorem stat_payload_layout (s : SlimState) (e0 e1 e2 e3 ts : Nat) :
    (sendStatPayload s e0 e1 e2 e3 ts).length = 53 ∧
    (sendStatPayload s e0 e1 e2 e3 ts).take 4 = [e0, e1, e2, e3] ∧
    ((sendStatPayload s e0 e1 e2 e3 ts).drop 4).take 3 = [0, 0, 0] ∧
    ((sendStatPayload s e0 e1 e2 e3 ts).drop 7).take 4 = be32 s.streamBufSize ∧
    ((sendStatPayload s e0 e1 e2 e3 ts).drop 11).take 4 = be32 s.streamBufFull ∧
    ((sendStatPayload s e0 e1 e2 e3 ts).drop 15).take 4 =
      be32 (s.bytesReceived / 2 ^ 32 % 2 ^ 32) ∧
    ((sendStatPayload s e0 e1 e2 e3 ts).drop 19).take 4 =
      be32 (s.bytesReceived % 2 ^ 32) ∧
    ((sendStatPayload s e0 e1 e2 e3 ts).drop 23).take 2 = be16 0xFFFF ∧
    ((sendStatPayload s e0 e1 e2 e3 ts).drop 25).take 4 = be32 s.jiffies ∧
    ((sendStatPayload s e0 e1 e2 e3 ts).drop 29).take 4 = be32 s.outputBufSize ∧
    ((sendStatPayload s e0 e1 e2 e3 ts).drop 33).take 4 = be32 s.outputBufFull ∧
    ((sendStatPayload s e0 e1 e2 e3 ts).drop 37).take 4 = be32 s.elapsedSeconds ∧
    ((sendStatPayload s e0 e1 e2 e3 ts).drop 41).take 2 = be16 0 ∧
    ((sendStatPayload s e0 e1 e2 e3 ts).drop 43).take 4 = be32 s.elapsedMs ∧
    ((sendStatPayload s e0 e1 e2 e3 ts).drop 47).take 4 = be32 ts ∧
    ((sendStatPayload s e0 e1 e2 e3 ts).drop 51).take 2 = be16 0 := by
  refine ⟨?_, ?_, ?_, ?_, ?_, ?_, ?_, ?_, ?_, ?_, ?_, ?_, ?_, ?_, ?_, ?_⟩ <;>
    simp [sendStatPayload, be32, be16]

/-- C4: on a strm frame whose sub-command byte is ASCII t, handleStrm
invokes no stream callback and sends exactly one STAT payload whose event
code is STMt and whose server-timestamp field echoes the 32-bit big-endian
timestamp at bytes 14..17 of the command (the replay-gain-or-interval
field). -/
theorem heartbeat_stat_echo (s : SlimState) (d : List Nat)
    (hlen : 24 ≤ d.length) (hcmd : d.getD 0 0 = 116) :
    (handleStrm s d).2 = [] ∧
    (handleStrm s d).1 = [sendStatPayload s 83 84 77 116 (readBE32 d 14)] ∧
    ((sendStatPayload s 83 84 77 116 (readBE32 d 14)).take 4 = [83, 84, 77, 116] ∧
     readBE32 ((sendStatPayload s 83 84 77 116 (readBE32 d 14)).drop 47) 0 =
       readBE32 d 14 % 2 ^ 32) := by
  have h24 : ¬ d.length < 24 := by omega
  have hc : d[0]?.getD 0 = 116 := by simpa [List.getD] using hcmd
  refine ⟨?_, ?_, rfl, ?_⟩
  · simp [handleStrm, h24, strmParse, hc]
  · simp [handleStrm, h24, strmParse, hc]
  · have : (sendStatPayload s 83 84 77 116 (readBE32 d 14)).drop 47 =
        be32 (readBE32 d 14) ++ be16 0 := rfl
    rw [this]
    have hb : readBE32 (be32 (readBE32 d 14) ++ be16 0) 0 =
        readBE32 (be32 (readBE32 d 14)) 0 := rfl
    rw [hb, readBE32_be32]

/-- Concrete heartbeat frame of scenario S6: sub-command t with server
timestamp 0xDEADBEEF in the replay-gain-or-interval field. -/
def strmS6Bytes : List Nat :=
  [116, 48, 112, 63, 63, 63, 63, 0, 48, 0, 48, 0, 0, 0,
   0xDE, 0xAD, 0xBE, 0xEF, 0, 0, 0, 0, 0, 0]

/-- Witness for the heartbeat theorem at the concrete S6 frame. -/
theorem heartbeat_stat_echo_witness :
    (handleStrm slimState0 strmS6Bytes).2 = [] ∧
    (handleStrm slimState0 strmS6Bytes).1 =
      [sendStatPayload slimState0 83 84 77 116 (readBE32 strmS6Bytes 14)] := by
  have h := heartbeat_stat_echo slimState0 strmS6Bytes (by decide) (by decide)
  exact ⟨h.1, h.2.1⟩

/-- C5 counterexample: on the S5 byte sequence the dispatcher decodes the
server port from bytes 18..19, which are zero, not 9000; the bytes 23 28
land at offsets 20..21 inside the server-address field. -/
theorem strm_s5_port_not_9000 :
    (strmParse strmS5Bytes).serverPort = 0 ∧ (strmParse strmS5Bytes).serverPort ≠ 9000 := by
  constructor <;> decide

/-- C5 (amended): on the S5 bytes the dispatcher recognizes command s,
format f, sample-rate code 3 mapping to 44100 Hz, channel code 2 mapping to
2 channels, decodes serverPort = 0 (bytes 18..19) and serverIp = 0x23280000
(bytes 20..23, which contain the 23 28 bytes), and invokes the stream
callback exactly once with the HTTP request suffix from byte 24 on. -/
theorem strm_s5_dispatch :
    (strmParse strmS5Bytes).command = 0x73 ∧
    (strmParse strmS5Bytes).format = 0x66 ∧
    (strmParse strmS5Bytes).pcmSampleRate = 0x33 ∧
    sampleRateFromCode 0x33 = 44100 ∧
    (strmParse strmS5Bytes).pcmChannels = 0x32 ∧
    channelsFromPcmCode 0x32 = 2 ∧
    (strmParse strmS5Bytes).serverPort = 0 ∧
    (strmParse strmS5Bytes).serverIp = 0x23280000 ∧
    handleStrm slimState0 (strmS5Bytes ++ strmS5Http) =
      ([], [(strmParse (strmS5Bytes ++ strmS5Http), strmS5Http)]) := by
  refine ⟨by decide, by decide, by decide, by decide, by decide, by decide,
    by decide, by decide, by decide⟩

-- ==========================================================
-- PcmDecoder.cpp: convertSamples
-- ==========================================================

/-- PcmDecoder::convertSamples. The source computes
bytesPerSample = bitDepth / 8 and converts srcBytes / bytesPerSample
samples, one switch case per byte width, on either endianness. Sample
values are the int32 values the C++ produces (shifts modelled as exact
arithmetic on the sign-extended value, which stays within int32 range).
A byte width outside 1..4 hits no switch case and writes nothing; the
model returns 0 for those lanes. -/
def pcmConvertSamples (bigEndian : Bool) (bitDepth : Nat) (src : List Nat) :
    List Int :=
  let bytesPerSample := bitDepth / 8
  let numSamples := if bytesPerSample = 0 then 0 else src.length / bytesPerSample
  (List.range numSamples).map fun i =>
    if bigEndian then
      match bytesPerSample with
      | 1 => toSigned 8 (src.getD i 0) * 2 ^ 24
      | 2 => toSigned 16 (src.getD (i * 2) 0 * 2 ^ 8 + src.getD (i * 2 + 1) 0) * 2 ^ 16
      | 3 => toSigned 32 (src.getD (i * 3) 0 * 2 ^ 24 + src.getD (i * 3 + 1) 0 * 2 ^ 16 +
               src.getD (i * 3 + 2) 0 * 2 ^ 8)
      | 4 => toSigned 32 (src.getD (i * 4) 0 * 2 ^ 24 + src.getD (i * 4 + 1) 0 * 2 ^ 16 +
               src.getD (i * 4 + 2) 0 * 2 ^ 8 + src.getD (i * 4 + 3) 0)
      | _ => 0
    else
      match bytesPerSample with
      | 1 => toSigned 8 (src.getD i 0) * 2 ^ 24
      | 2 => toSigned 16 (src.getD (i * 2) 0 + src.getD (i * 2 + 1) 0 * 2 ^ 8) * 2 ^ 16
      | 3 => toSigned 32 (src.getD (i * 3 + 2) 0 * 2 ^ 24 + src.getD (i * 3 + 1) 0 * 2 ^ 16 +
               src.getD (i * 3) 0 * 2 ^ 8)
      | 4 => toSigned 32 (src.getD i.succ 0 * 0 + src.getD (i * 4) 0 +
               src.getD (i * 4 + 1) 0 * 2 ^ 8 + src.getD (i * 4 + 2) 0 * 2 ^ 16 +
               src.getD (i * 4 + 3) 0 * 2 ^ 24)
      | _ => 0

/-- C2 (code bug, N = 20): a 20-bit source sample of value 1 arrives
MSB-justified in its 3-byte little-endian container as bytes 10 00 00.
The conversion at bitDepth 20 consumes only 20 / 8 = 2 bytes per sample
and left-shifts the 16-bit value by 16, emitting 0x00100000 instead of
the claimed sign-extended-source-shifted-by-12 value 0x1000; the FLAC
shift and the spec demand toSigned 20 1 * 2 ^ 12 = 4096. -/
theorem pcm_convert_20bit_wrong :
    20 / 8 = 2 ∧
    pcmConvertSamples false 20 [0x10, 0, 0] = [1048576] ∧
    toSigned 20 1 * 2 ^ 12 = 4096 ∧
    pcmConvertSamples false 20 [0x10, 0, 0] ≠ [toSigned 20 1 * 2 ^ 12] := by
  refine ⟨by decide, by decide, by decide, by decide⟩

-- ==========================================================
-- HttpStreamClient.cpp: parseResponseHeaders
-- ==========================================================

/-- Byte loop of HttpStreamClient::parseResponseHeaders. One byte is
consumed per step; the endSeq machine tracks a partial 0d 0a 0d 0a
terminator match, a completed terminator breaks with success (returning
the number of header bytes consumed), and a buffer growing past 16384
bytes without a completed terminator fails. Running out of stream bytes
models recv returning 0 or a negative value. -/
def parseLoop : List Nat → Nat → Nat → Option Nat
  | [], _, _ => none
  | c :: rest, endSeq, size =>
      let size1 := size + 1
      if c = 10 ∧ endSeq = 3 then some size1
      else
        let endSeq1 :=
          if c = 13 ∧ (endSeq = 0 ∨ endSeq = 2) then endSeq + 1
          else if c = 10 ∧ endSeq = 1 then endSeq + 1
          else 0
        if size1 > 16384 then none
        else parseLoop rest endSeq1 size1

/-- HttpStreamClient::parseResponseHeaders applied to the byte stream the
socket will deliver: some n when the header terminator is found after
consuming n bytes, none when connect must fail and close the socket. -/
def parseResponseHeaders (s : List Nat) : Option Nat :=
  parseLoop s 0 0

/-- Position k (1-based, counting consumed bytes) is the end of an
occurrence of the 0d 0a 0d 0a header terminator in the stream. -/
def crlfcrlfEndsAt (s : List Nat) (k : Nat) : Prop :=
  4 ≤ k ∧ k ≤ s.length ∧
  s.getD (k - 4) 0 = 13 ∧ s.getD (k - 3) 0 = 10 ∧
  s.getD (k - 2) 0 = 13 ∧ s.getD (k - 1) 0 = 10

/-- Stream refuting C10 as stated: 16381 filler bytes then the header
terminator, whose final byte is consumed as byte number 16385. -/
def headerEdgeStream : List Nat :=
  List.replicate 16381 65 ++ [13, 10, 13, 10]

/-- Filler bytes advance parseLoop without changing the machine state,
as long as the 16384-byte budget is not exhausted. -/
theorem parseLoop_replicate_filler (t : List Nat) :
    ∀ n size, size + n ≤ 16384 →
      parseLoop (List.replicate n 65 ++ t) 0 size = parseLoop t 0 (size + n) := by
  intro n
  induction n with
  | zero => intro size _; simp
  | succ m ih =>
      intro size h
      have : List.replicate (m + 1) 65 ++ t = 65 :: (List.replicate m 65 ++ t) := by
        simp [List.replicate_succ]
      rw [this]
      show (if (65 : Nat) = 10 ∧ (0 : Nat) = 3 then some (size + 1)
        else if size + 1 > 16384 then none
        else parseLoop (List.replicate m 65 ++ t)
          (if (65 : Nat) = 13 ∧ ((0 : Nat) = 0 ∨ (0 : Nat) = 2) then 0 + 1
           else if (65 : Nat) = 10 ∧ (0 : Nat) = 1 then 0 + 1 else 0) (size + 1)) =
        parseLoop t 0 (size + m + 1)
      rw [if_neg (by omega), if_neg (by omega), if_neg (by simp), if_neg (by simp)]
      rw [ih (size + 1) (by omega)]
      congr 1
      omega

/-- C10 counterexample: on headerEdgeStream the terminator has not
appeared within the first 16384 bytes read, yet parseResponseHeaders
succeeds (consuming 16385 bytes), because the source checks the 16 KiB
bound only after the terminator test. -/
theorem parse_headers_16385_succeeds :
    (∀ k, k ≤ 16384 → ¬ crlfcrlfEndsAt headerEdgeStream k) ∧
    parseResponseHeaders headerEdgeStream = some 16385 := by
  constructor
  · intro k hk hend
    obtain ⟨h4, _, h13, _⟩ := hend
    have hidx : k - 4 < 16381 := by omega
    have : headerEdgeStream.getD (k - 4) 0 = 65 := by
      unfold headerEdgeStream
      rw [List.getD_eq_getElem?_getD,
        List.getElem?_append_left (by rw [List.length_replicate]; exact hidx),
        List.getElem?_replicate, if_pos hidx]
      rfl
    omega
  · show parseLoop (List.replicate 16381 65 ++ [13, 10, 13, 10]) 0 0 = some 16385
    rw [parseLoop_replicate_filler [13, 10, 13, 10] 16381 0 (by omega)]
    decide

/-- Partial-match invariant of the endSeq machine: endSeq = e means the
last e consumed bytes are the first e bytes of the terminator. -/
def patInv (s : List Nat) (i e : Nat) : Prop :=
  e = 0 ∨
  (e = 1 ∧ 1 ≤ i ∧ s.getD (i - 1) 0 = 13) ∨
  (e = 2 ∧ 2 ≤ i ∧ s.getD (i - 2) 0 = 13 ∧ s.getD (i - 1) 0 = 10) ∨
  (e = 3 ∧ 3 ≤ i ∧ s.getD (i - 3) 0 = 13 ∧ s.getD (i - 2) 0 = 10 ∧
    s.getD (i - 1) 0 = 13)

/-- Main induction for C10 (amended): if no terminator occurrence ends at
any position up to 16385, the header loop fails from any reachable
configuration. -/
theorem parseLoop_no_term (s : List Nat)
    (hterm : ∀ k, crlfcrlfEndsAt s k → 16385 < k) :
    ∀ t i e, t = List.drop i s → i ≤ 16384 → e ≤ 3 → patInv s i e →
      parseLoop t e i = none := by
  intro t
  induction t with
  | nil => intro i e _ _ _ _; rfl
  | cons c rest ih =>
      intro i e hdrop hi he hinv
      have hlen : i < s.length := by
        by_contra hcon
        have hnil : List.drop i s = [] := List.drop_eq_nil_of_le (by omega)
        rw [hnil] at hdrop
        exact absurd hdrop (by simp)
      have hc : s.getD i 0 = c := by
        rw [List.getD_eq_getElem?_getD]
        have h0 : (List.drop i s)[0]? = some c := by rw [← hdrop]; simp
        rw [List.getElem?_drop] at h0
        simpa using congrArg (Option.getD · 0) h0
      have hrest : rest = List.drop (i + 1) s := by
        have h1 := congrArg (List.drop 1) hdrop
        simpa [List.drop_drop, Nat.add_comm] using h1
      show (if c = 10 ∧ e = 3 then some (i + 1)
        else
          let endSeq1 :=
            if c = 13 ∧ (e = 0 ∨ e = 2) then e + 1
            else if c = 10 ∧ e = 1 then e + 1
            else 0
          if i + 1 > 16384 then none
          else parseLoop rest endSeq1 (i + 1)) = none
      by_cases hsucc : c = 10 ∧ e = 3
      · exfalso
        obtain ⟨hc10, he3⟩ := hsucc
        subst he3
        rcases hinv with h0 | h1 | h2 | h3
        · omega
        · omega
        · omega
        · obtain ⟨_, hi3, p1, p2, p3⟩ := h3
          have hocc : crlfcrlfEndsAt s (i + 1) := by
            have e1 : i + 1 - 4 = i - 3 := by omega
            have e2 : i + 1 - 3 = i - 2 := by omega
            have e3 : i + 1 - 2 = i - 1 := by omega
            have e4 : i + 1 - 1 = i := by omega
            exact ⟨by omega, by omega, by rw [e1]; exact p1,
              by rw [e2]; exact p2, by rw [e3]; exact p3,
              by rw [e4, hc, hc10]⟩
          have := hterm (i + 1) hocc
          omega
      · rw [if_neg hsucc]
        show (if i + 1 > 16384 then none
          else parseLoop rest
            (if c = 13 ∧ (e = 0 ∨ e = 2) then e + 1
             else if c = 10 ∧ e = 1 then e + 1
             else 0) (i + 1)) = none
        by_cases hsz : i + 1 > 16384
        · rw [if_pos hsz]
        · rw [if_neg hsz]
          by_cases h13 : c = 13 ∧ (e = 0 ∨ e = 2)
          · rw [if_pos h13]
            obtain ⟨hc13, he02⟩ := h13
            refine ih (i + 1) (e + 1) hrest (by omega) (by omega) ?_
            rcases he02 with he0 | he2
            · subst he0
              refine Or.inr (Or.inl ⟨rfl, by omega, ?_⟩)
              simpa [Nat.add_sub_cancel] using hc.trans (by rw [hc13])
            · subst he2
              rcases hinv with h0 | h1 | h2 | h3
              · omega
              · omega
              · obtain ⟨_, hi2, q1, q2⟩ := h2
                refine Or.inr (Or.inr (Or.inr ⟨rfl, by omega, ?_, ?_, ?_⟩))
                · have e1 : i + 1 - 3 = i - 2 := by omega
                  rw [e1]; exact q1
                · have e2 : i + 1 - 2 = i - 1 := by omega
                  rw [e2]; exact q2
                · have e3 : i + 1 - 1 = i := by omega
                  rw [e3, hc, hc13]
              · omega
          · rw [if_neg h13]
            by_cases h10 : c = 10 ∧ e = 1
            · rw [if_pos h10]
              obtain ⟨hc10, he1⟩ := h10
              subst he1
              rcases hinv with h0 | h1 | h2 | h3
              · omega
              · obtain ⟨_, hi1, q1⟩ := h1
                refine ih (i + 1) 2 hrest (by omega) (by omega) ?_
                refine Or.inr (Or.inr (Or.inl ⟨rfl, by omega, ?_, ?_⟩))
                · have e1 : i + 1 - 2 = i - 1 := by omega
                  rw [e1]; exact q1
                · have e2 : i + 1 - 1 = i := by omega
                  rw [e2, hc, hc10]
              · omega
              · omega
            · rw [if_neg h10]
              exact ih (i + 1) 0 hrest (by omega) (by omega) (Or.inl rfl)

/-- Success bound of the header loop: whenever it succeeds, the consumed
byte count is at most one past the 16384-byte budget. -/
theorem parseLoop_some_le : ∀ (t : List Nat) (e i r : Nat), i ≤ 16384 →
    parseLoop t e i = some r → r ≤ 16385 := by
  intro t
  induction t with
  | nil => intro e i r _ h; exact absurd h (by simp [parseLoop])
  | cons c rest ih =>
      intro e i r hi h
      rw [show parseLoop (c :: rest) e i =
        (if c = 10 ∧ e = 3 then some (i + 1)
         else
           if i + 1 > 16384 then none
           else parseLoop rest
             (if c = 13 ∧ (e = 0 ∨ e = 2) then e + 1
              else if c = 10 ∧ e = 1 then e + 1
              else 0) (i + 1)) from rfl] at h
      by_cases hsucc : c = 10 ∧ e = 3
      · rw [if_pos hsucc] at h
        cases h
        omega
      · rw [if_neg hsucc] at h
        by_cases hsz : i + 1 > 16384
        · rw [if_pos hsz] at h; cases h
        · rw [if_neg hsz] at h
          exact ih _ (i + 1) r (by omega) h

/-- C10 (amended): HttpStreamClient::connect fails (parseResponseHeaders
returns none, so the socket is closed) whenever the header terminator
0d 0a 0d 0a has not appeared within the first 16385 bytes read from the
socket, and any successful parse consumes at most 16385 bytes; the bound
is one byte looser than 16384 because the source tests the terminator
before the 16 KiB size check. -/
theorem http_header_bound_16385 (s : List Nat) :
    ((∀ k, crlfcrlfEndsAt s k → 16385 < k) → parseResponseHeaders s = none) ∧
    (∀ r, parseResponseHeaders s = some r → r ≤ 16385) := by
  constructor
  · intro hterm
    exact parseLoop_no_term s hterm s 0 0 rfl (by omega) (by omega) (Or.inl rfl)
  · intro r h
    exact parseLoop_some_le s 0 0 r (by omega) h

/-- Witness for the amended C10 bound on a concrete terminator-free
stream. -/
theorem http_header_bound_16385_witness : parseResponseHeaders [65] = none := by
  refine (http_header_bound_16385 [65]).1 ?_
  intro k hk
  obtain ⟨h4, hlen, _⟩ := hk
  simp at hlen
  omega

-- ==========================================================
-- HttpStreamClient.cpp: ICY metadata stripping (read / skipIcyMetadata)
-- ==========================================================

/-- Observable state of HttpStreamClient after header parsing: the
icy-metaint value, the countdown m_icyBytesUntilMeta, and the bytes the
socket will still deliver. -/
structure IcyState where
  metaInt : Nat
  untilMeta : Nat
  stream : List Nat
  deriving Repr, DecidableEq

/-- HttpStreamClient::read modelled with a deterministic recv that
returns min(requested, available) bytes. Returns the bytes handed to the
caller (none models the -1 error return) and the successor state.
When the metaInt countdown is exhausted, skipIcyMetadata consumes one
length byte l and l * 16 metadata bytes before the next audio read. -/
def icyRead (s : IcyState) (maxLen : Nat) : Option (List Nat) × IcyState :=
  if s.metaInt = 0 then
    let n := min maxLen s.stream.length
    (some (s.stream.take n), { s with stream := s.stream.drop n })
  else if min maxLen s.untilMeta = 0 then
    if s.stream.length = 0 then (none, s)
    else
      let l := s.stream.headD 0
      let rest := s.stream.tail
      if l * 16 ≤ rest.length then
        let s2 := rest.drop (l * 16)
        let n := min (min maxLen s.metaInt) s2.length
        (some (s2.take n),
          { s with stream := s2.drop n, untilMeta := s.metaInt - n })
      else (none, { s with stream := [] })
  else
    let n := min (min maxLen s.untilMeta) s.stream.length
    (some (s.stream.take n),
      { s with stream := s.stream.drop n, untilMeta := s.untilMeta - n })

/-- Run a schedule of read requests, concatenating the delivered bytes. -/
def runIcyReads (s : IcyState) : List Nat → List Nat × IcyState
  | [] => ([], s)
  | r :: rs =>
      let step := icyRead s r
      let rest := runIcyReads step.2 rs
      ((step.1.getD []) ++ rest.1, rest.2)

/-- Audio windows of an ICY stream: with b payload bytes left before the
next metadata block, the audio content of the raw socket bytes s is the
next b bytes, then, skipping the length byte l and l * 16 metadata bytes,
the audio content of the remainder with a fresh window of M bytes. -/
def audioOf (M b : Nat) (s : List Nat) : List Nat :=
  if _hsb : s.length ≤ b then s
  else s.take b ++ audioOf M M ((s.drop (b + 1)).drop (s.getD b 0 * 16))
termination_by s.length
decreasing_by
  simp only [List.length_drop]
  omega

/-- Delivering n audio bytes commutes with the audio-window function:
taking n bytes off the stream while decrementing the window by n leaves
the same total audio content. -/
theorem audioOf_take_drop (M b n : Nat) (s : List Nat)
    (hnb : n ≤ b) (hns : n ≤ s.length) :
    s.take n ++ audioOf M (b - n) (s.drop n) = audioOf M b s := by
  by_cases hsb : s.length ≤ b
  · have hL : audioOf M (b - n) (s.drop n) = s.drop n := by
      rw [audioOf, dif_pos (by simp; omega)]
    have hR : audioOf M b s = s := by
      rw [audioOf, dif_pos hsb]
    rw [hL, hR]
    exact List.take_append_drop n s
  · have hL : audioOf M (b - n) (s.drop n) =
        (s.drop n).take (b - n) ++
          audioOf M M (((s.drop n).drop (b - n + 1)).drop
            ((s.drop n).getD (b - n) 0 * 16)) := by
      rw [audioOf, dif_neg (by simp; omega)]
    have hdd : (s.drop n).drop (b - n + 1) = s.drop (b + 1) := by
      rw [List.drop_drop]
      congr 1
      omega
    have hgd : (s.drop n).getD (b - n) 0 = s.getD b 0 := by
      rw [List.getD_eq_getElem?_getD, List.getD_eq_getElem?_getD,
        List.getElem?_drop]
      congr 2
      omega
    have hR : audioOf M b s =
        s.take b ++ audioOf M M ((s.drop (b + 1)).drop (s.getD b 0 * 16)) := by
      rw [audioOf, dif_neg hsb]
    rw [hL, hdd, hgd, hR, ← List.append_assoc]
    congr 1
    have := List.take_add s n (b - n)
    rw [show n + (b - n) = b from by omega] at this
    exact this.symm

/-- One read request of at least one byte preserves the audio-window
coherence: the delivered bytes followed by the audio content of the new
state equal the audio content of the old state. -/
theorem icyRead_preserves (s : IcyState) (r : Nat) (hr : 1 ≤ r)
    (hM : 1 ≤ s.metaInt) :
    (icyRead s r).2.metaInt = s.metaInt ∧
    ((icyRead s r).1.getD []) ++
      audioOf s.metaInt (icyRead s r).2.untilMeta (icyRead s r).2.stream =
      audioOf s.metaInt s.untilMeta s.stream := by
  unfold icyRead
  rw [if_neg (by omega)]
  by_cases hu : min r s.untilMeta = 0
  · have hu0 : s.untilMeta = 0 := by omega
    rw [if_pos hu]
    by_cases hlen0 : s.stream.length = 0
    · rw [if_pos hlen0]
      exact ⟨rfl, by simp⟩
    · rw [if_neg hlen0]
      cases hstream : s.stream with
      | nil => rw [hstream] at hlen0; simp at hlen0
      | cons l rest =>
          rw [hu0]
          simp only [List.headD_cons, List.tail_cons]
          have hrhs : audioOf s.metaInt 0 (l :: rest) =
              audioOf s.metaInt s.metaInt (rest.drop (l * 16)) := by
            rw [audioOf, dif_neg (by simp)]
            simp
          by_cases hmeta : l * 16 ≤ rest.length
          · rw [if_pos hmeta]
            refine ⟨rfl, ?_⟩
            simp only [hrhs]
            exact audioOf_take_drop s.metaInt s.metaInt
              (min (min r s.metaInt) (rest.drop (l * 16)).length)
              (rest.drop (l * 16)) (by omega) (by omega)
          · rw [if_neg hmeta]
            refine ⟨rfl, ?_⟩
            simp only [hrhs, Option.getD_none, List.nil_append]
            have h1 : rest.drop (l * 16) = [] :=
              List.drop_eq_nil_of_le (by omega)
            rw [h1]
            rw [audioOf, dif_pos (by simp), audioOf, dif_pos (by simp)]
  · rw [if_neg hu]
    refine ⟨rfl, ?_⟩
    exact audioOf_take_drop s.metaInt s.untilMeta
      (min (min r s.untilMeta) s.stream.length) s.stream (by omega) (by omega)

/-- C3 (amended): for every HTTP response with non-zero icy-metaint M and
every schedule of read requests of at least one byte each, the bytes
delivered to callers followed by the audio content of the final state
equal the audio windows of the original socket stream; so the delivered
sequence is exactly the metadata-stripped audio prefix, with no metadata
byte ever handed to a decoder. -/
theorem icy_strip_exact (reqs : List Nat) (hreqs : ∀ r ∈ reqs, 1 ≤ r) :
    ∀ s : IcyState, 1 ≤ s.metaInt →
      (runIcyReads s reqs).2.metaInt = s.metaInt ∧
      (runIcyReads s reqs).1 ++
        audioOf s.metaInt (runIcyReads s reqs).2.untilMeta
          (runIcyReads s reqs).2.stream =
        audioOf s.metaInt s.untilMeta s.stream := by
  induction reqs with
  | nil => intro s hM; exact ⟨rfl, rfl⟩
  | cons r rs ih =>
      intro s hM
      have hr : 1 ≤ r := hreqs r (by simp)
      have hstep := icyRead_preserves s r hr hM
      have hrs : ∀ x ∈ rs, 1 ≤ x := fun x hx => hreqs x (by simp [hx])
      have hih := (ih hrs) (icyRead s r).2 (by rw [hstep.1]; exact hM)
      show (runIcyReads (icyRead s r).2 rs).2.metaInt = s.metaInt ∧
        ((icyRead s r).1.getD [] ++ (runIcyReads (icyRead s r).2 rs).1) ++
          audioOf s.metaInt (runIcyReads (icyRead s r).2 rs).2.untilMeta
            (runIcyReads (icyRead s r).2 rs).2.stream =
          audioOf s.metaInt s.untilMeta s.stream
      constructor
      · rw [hih.1, hstep.1]
      · rw [List.append_assoc]
        have h2 := hih.2
        rw [hstep.1] at h2
        rw [h2]
        exact hstep.2

/-- Witness for the amended ICY theorem at a concrete one-byte stream. -/
theorem icy_strip_exact_witness :
    (runIcyReads ⟨1, 1, [5]⟩ [1]).2.metaInt = 1 ∧
    (runIcyReads ⟨1, 1, [5]⟩ [1]).1 ++
      audioOf 1 (runIcyReads ⟨1, 1, [5]⟩ [1]).2.untilMeta
        (runIcyReads ⟨1, 1, [5]⟩ [1]).2.stream =
      audioOf 1 1 [5] :=
  icy_strip_exact [1] (by simp) ⟨1, 1, [5]⟩ (by simp)

/-- Concrete socket stream for the C3 counterexample: one audio byte 0,
a metadata block of length byte 1 plus 16 metadata bytes 200..215, then
one audio byte 187, with icy-metaint M = 1. -/
def icyEdgeStream : List Nat :=
  [0, 1] ++ (List.range 16).map (fun i => 200 + i) ++ [187]

/-- C3 counterexample: with a zero-length read in the schedule the claim
fails as stated. read(0) at a non-boundary triggers skipIcyMetadata,
which consumes the pending audio byte 0 as a bogus length byte; the next
read(1) then delivers the metadata length byte 1 to the caller, even
though the audio windows of the stream are [0, 187]. -/
theorem icy_zero_read_delivers_metadata :
    (runIcyReads ⟨1, 1, icyEdgeStream⟩ [0, 1]).1 = [1] ∧
    audioOf 1 1 icyEdgeStream = [0, 187] ∧
    ¬ (runIcyReads ⟨1, 1, icyEdgeStream⟩ [0, 1]).1 <+:
        audioOf 1 1 icyEdgeStream := by
  have h1 : (runIcyReads ⟨1, 1, icyEdgeStream⟩ [0, 1]).1 = [1] := by decide
  have h2 : audioOf 1 1 icyEdgeStream = [0, 187] := by
    rw [audioOf, dif_neg (by decide)]
    rw [show ((icyEdgeStream.drop (1 + 1)).drop (icyEdgeStream.getD 1 0 * 16)) =
      [187] from by decide]
    rw [audioOf, dif_pos (by decide)]
    decide
  refine ⟨h1, h2, ?_⟩
  rw [h1, h2]
  decide

-- ==========================================================
-- DsdProcessor.cpp and DsdStreamReader.cpp
-- ==========================================================

/-- DsdProcessor::deinterleaveToPlaynar: mono (fewer than 2 channels) is a
plain copy of numBytes bytes; otherwise dst[ch * bpc + i] = src[i * ch' + ch]
with bpc = numBytes / channels. -/
def deinterleaveToPlaynar (src : List Nat) (numBytes channels : Nat) :
    List Nat :=
  if channels < 2 then src.take numBytes
  else
    let bpc := numBytes / channels
    ((List.range channels).map (fun ch => (List.range bpc).map
      (fun i => src.getD (i * channels + ch) 0))).flatten

/-- DsdFormat of DsdStreamReader.h. -/
inductive DsdContainer where
  | dsf
  | dff
  | raw
  deriving Repr, DecidableEq

/-- DsdFormat of DsdStreamReader.h (field defaults are the in-class
initializers). -/
structure DsdFormat where
  sampleRate : Nat := 0
  channels : Nat := 0
  blockSizePerChannel : Nat := 0
  totalDsdBytes : Nat := 0
  container : DsdContainer := .dsf
  isLSBFirst : Bool := false
  deriving Repr, DecidableEq

/-- Parser states of DsdStreamReader. -/
inductive DsdMachine where
  | detect
  | parseDsf
  | parseDff
  | data
  | done
  | error
  deriving Repr, DecidableEq

/-- Member state of DsdStreamReader. -/
structure DsdState where
  state : DsdMachine := .detect
  headerBuf : List Nat := []
  dataBuf : List Nat := []
  format : DsdFormat := {}
  formatReady : Bool := false
  rawDsdConfigured : Bool := false
  dataRemaining : Nat := 0
  totalBytesOutput : Nat := 0
  eof : Bool := false
  error : Bool := false
  finished : Bool := false
  deriving Repr, DecidableEq

/-- Freshly constructed DsdStreamReader (also the state flush resets to). -/
def dsdInit : DsdState := {}

/-- DsdStreamReader::flush. -/
def dsdFlush (_st : DsdState) : DsdState := dsdInit

/-- DsdStreamReader::setRawDsdFormat. -/
def setRawDsdFormat (st : DsdState) (dsdRate channels : Nat) : DsdState :=
  { st with
    format := { sampleRate := dsdRate, channels := channels,
                blockSizePerChannel := 0, totalDsdBytes := 0,
                container := .raw, isLSBFirst := false },
    rawDsdConfigured := true }

/-- Four-byte magic comparison (memcmp(p + off, m, 4) == 0); the C++ call
sites all bound-check off + 4 against the buffer first. -/
def magic4 (d : List Nat) (off a b c e : Nat) : Bool :=
  d.getD off 0 == a && d.getD (off + 1) 0 == b &&
  d.getD (off + 2) 0 == c && d.getD (off + 3) 0 == e

/-- DsdStreamReader::detectContainer (ASCII magics: DSD_ = 68 83 68 32,
FRM8 = 70 82 77 56). -/
def detectContainer (st : DsdState) : DsdState :=
  if st.headerBuf.length < 4 then st
  else if magic4 st.headerBuf 0 68 83 68 32 then { st with state := .parseDsf }
  else if magic4 st.headerBuf 0 70 82 77 56 then { st with state := .parseDff }
  else if st.rawDsdConfigured then
    { st with
      formatReady := true
      dataRemaining := 0
      dataBuf := st.dataBuf ++ st.headerBuf
      headerBuf := []
      state := .data }
  else { st with state := .error, error := true }

/-- Success tail of parseDsfHeader: record the format, move the excess
header bytes (clamped to the data-chunk size) to the data buffer and
enter the DATA state. The uint64 subtraction dataChunkSize - 12 keeps
the explicit two's-complement wrap of the source's unsigned arithmetic. -/
def dsfApplyHeader (st : DsdState) : DsdState :=
  let d := st.headerBuf
  let fmtChunkSize := readLE64 d 32
  let channelCount := readLE32 d 52
  let sampleRate := readLE32 d 56
  let blockSize := readLE32 d 72
  let dataChunkOffset := 28 + fmtChunkSize
  let dataChunkSize := readLE64 d (dataChunkOffset + 4)
  let dataBytes := (dataChunkSize + 2 ^ 64 - 12) % 2 ^ 64
  let dataStart := dataChunkOffset + 12
  let excess := d.length - dataStart
  let toMove := if dataBytes > 0 ∧ excess > dataBytes then dataBytes
    else excess
  { st with
    format := { sampleRate := sampleRate, channels := channelCount,
                blockSizePerChannel := blockSize,
                totalDsdBytes := dataBytes, container := .dsf,
                isLSBFirst := true },
    dataRemaining := if dataBytes > 0 then dataBytes - toMove
      else dataBytes,
    formatReady := true,
    dataBuf := st.dataBuf ++ (d.drop dataStart).take toMove,
    headerBuf := [],
    state := .data }

/-- DsdStreamReader::parseDsfHeader (validation chain; the success tail
is dsfApplyHeader). -/
def parseDsfHeader (st : DsdState) : DsdState :=
  if st.headerBuf.length < 92 then st
  else if ¬ magic4 st.headerBuf 0 68 83 68 32 then
    { st with state := .error, error := true }
  else if ¬ magic4 st.headerBuf 28 102 109 116 32 then
    { st with state := .error, error := true }
  else if readLE32 st.headerBuf 44 ≠ 0 then
    { st with state := .error, error := true }
  else if readLE32 st.headerBuf 52 = 0 ∨ readLE32 st.headerBuf 52 > 8 then
    { st with state := .error, error := true }
  else if readLE32 st.headerBuf 72 = 0 then
    { st with state := .error, error := true }
  else if st.headerBuf.length < 28 + readLE64 st.headerBuf 32 + 12 then st
  else if ¬ magic4 st.headerBuf (28 + readLE64 st.headerBuf 32) 100 97 116 97 then
    { st with state := .error, error := true }
  else dsfApplyHeader st

/-- Result of the PROP sub-chunk scan of parseDffHeader. -/
inductive DffPropScan where
  | needMore
  | failed
  | ok (sampleRate channels : Nat) (foundFS foundCHNL : Bool)
  deriving Repr, DecidableEq

/-- Inner while loop of parseDffHeader over the sub-chunks of a PROP
chunk (FS__ = 70 83 32 32, CHNL = 67 72 78 76, CMPR = 67 77 80 82). The
fuel starts at the buffer length; every iteration advances subPos by at
least 12, so the fuel never runs out before the loop guard stops it. -/
def dffPropScan (d : List Nat) (propEnd : Nat) :
    Nat → Nat → Nat → Nat → Bool → Bool → DffPropScan
  | 0, _, sr, ch, fFS, fCH => .ok sr ch fFS fCH
  | fuel + 1, subPos, sr, ch, fFS, fCH =>
      if subPos + 12 > d.length ∨ subPos + 12 > propEnd then .ok sr ch fFS fCH
      else
        let subSize := readBE64 d (subPos + 4)
        let next := subPos + 12 + subSize
        let next2 := if next % 2 = 1 then next + 1 else next
        if magic4 d subPos 70 83 32 32 then
          if subPos + 12 + 4 > d.length then .needMore
          else dffPropScan d propEnd fuel next2 (readBE32 d (subPos + 12)) ch
            true fCH
        else if magic4 d subPos 67 72 78 76 then
          if subPos + 12 + 2 > d.length then .needMore
          else dffPropScan d propEnd fuel next2 sr
            (d.getD (subPos + 12) 0 * 2 ^ 8 + d.getD (subPos + 13) 0) fFS true
        else if magic4 d subPos 67 77 80 82 then
          if subPos + 12 + 4 > d.length then .needMore
          else if ¬ magic4 d (subPos + 12) 68 83 68 32 then .failed
          else dffPropScan d propEnd fuel next2 sr ch fFS fCH
        else dffPropScan d propEnd fuel next2 sr ch fFS fCH

/-- Result of the outer chunk scan of parseDffHeader. -/
inductive DffScan where
  | needMore
  | failed
  | found (sampleRate channels : Nat) (foundFS foundCHNL : Bool)
      (dataStart dataSize : Nat)
  deriving Repr, DecidableEq

/-- Outer while loop of parseDffHeader over the FRM8 sub-chunks
(FVER = 70 86 69 82, PROP = 80 82 79 80, SND_ = 83 78 68 32,
DSD_ = 68 83 68 32). Fuel as in dffPropScan. -/
def dffScan (d : List Nat) :
    Nat → Nat → Nat → Nat → Bool → Bool → DffScan
  | 0, _, _, _, _, _ => .needMore
  | fuel + 1, pos, sr, ch, fFS, fCH =>
      if pos + 12 > d.length then .needMore
      else
        let chunkSize := readBE64 d (pos + 4)
        if magic4 d pos 70 86 69 82 then
          dffScan d fuel (pos + 12 + chunkSize) sr ch fFS fCH
        else if magic4 d pos 80 82 79 80 then
          if pos + 16 > d.length then .needMore
          else if ¬ magic4 d (pos + 12) 83 78 68 32 then
            dffScan d fuel (pos + 12 + chunkSize) sr ch fFS fCH
          else
            let propEnd := pos + 12 + chunkSize
            match dffPropScan d propEnd d.length (pos + 16) sr ch fFS fCH with
            | .needMore => .needMore
            | .failed => .failed
            | .ok sr2 ch2 f1 f2 =>
                let pos2 := if propEnd % 2 = 1 then propEnd + 1 else propEnd
                dffScan d fuel pos2 sr2 ch2 f1 f2
        else if magic4 d pos 68 83 68 32 then
          .found sr ch fFS fCH (pos + 12) chunkSize
        else
          let next := pos + 12 + chunkSize
          let next2 := if next % 2 = 1 then next + 1 else next
          dffScan d fuel next2 sr ch fFS fCH

/-- Success tail of parseDffHeader, mirroring dsfApplyHeader. -/
def dffApplyHeader (st : DsdState) (sr ch dataStart dataSize : Nat) :
    DsdState :=
  let excess := st.headerBuf.length - dataStart
  let toMove := if dataSize > 0 ∧ excess > dataSize then dataSize
    else excess
  { st with
    format := { sampleRate := sr, channels := ch,
                blockSizePerChannel := 0, totalDsdBytes := dataSize,
                container := .dff, isLSBFirst := false },
    dataRemaining := if dataSize > 0 then dataSize - toMove
      else dataSize,
    formatReady := true,
    dataBuf := st.dataBuf ++ (st.headerBuf.drop dataStart).take toMove,
    headerBuf := [],
    state := .data }

/-- DsdStreamReader::parseDffHeader. -/
def parseDffHeader (st : DsdState) : DsdState :=
  if st.headerBuf.length < 16 then st
  else if ¬ (magic4 st.headerBuf 0 70 82 77 56 &&
      magic4 st.headerBuf 12 68 83 68 32) then
    { st with state := .error, error := true }
  else
    match dffScan st.headerBuf st.headerBuf.length 16 0 0 false false with
    | .needMore => st
    | .failed => { st with state := .error, error := true }
    | .found sr ch fFS fCH dataStart dataSize =>
        if ¬ fFS ∨ sr = 0 then { st with state := .error, error := true }
        else if ¬ fCH ∨ ch = 0 then { st with state := .error, error := true }
        else dffApplyHeader st sr ch dataStart dataSize

/-- Dispatch to the parser the current state demands. -/
def dsdHeaderParse (st2 : DsdState) : DsdState :=
  if st2.state = .parseDsf then parseDsfHeader st2
  else if st2.state = .parseDff then parseDffHeader st2
  else st2

/-- Header-phase step of feed: run detection when still detecting, then
whichever parser the state demands. -/
def dsdHeaderStep (st1 : DsdState) : DsdState :=
  dsdHeaderParse (if st1.state = .detect then detectContainer st1 else st1)

/-- DsdStreamReader::feed. -/
def dsdFeed (st : DsdState) (data : List Nat) : DsdState :=
  if st.state = .done ∨ st.state = .error then st
  else if st.state = .detect ∨ st.state = .parseDsf ∨ st.state = .parseDff then
    dsdHeaderStep { st with headerBuf := st.headerBuf ++ data }
  else if st.state = .data then
    { st with
      dataBuf := st.dataBuf ++ data.take
        (if st.dataRemaining > 0 ∧ data.length > st.dataRemaining
          then st.dataRemaining else data.length)
      dataRemaining := if st.dataRemaining > 0 then
        st.dataRemaining -
          (if st.dataRemaining > 0 ∧ data.length > st.dataRemaining
            then st.dataRemaining else data.length)
        else st.dataRemaining }
  else st

/-- DsdStreamReader::setEof. -/
def dsdSetEof (st : DsdState) : DsdState := { st with eof := true }

/-- Emit a prefix of the data buffer unchanged (the memcpy + erase +
counter update shared by the processDsfBlocks branches). -/
def dsfEmit (st : DsdState) (bytes : Nat) : List Nat × DsdState :=
  (st.dataBuf.take bytes,
    { st with
      dataBuf := st.dataBuf.drop bytes
      totalBytesOutput := st.totalBytesOutput + bytes })

/-- Channel-aligned byte count of the partial last block group emitted
at EOF by processDsfBlocks. -/
def dsfTailUsable (st : DsdState) (maxBytes : Nat) : Nat :=
  if st.dataBuf.length / st.format.channels * st.format.channels > maxBytes
  then maxBytes / st.format.channels * st.format.channels
  else st.dataBuf.length / st.format.channels * st.format.channels

/-- uint32_t blockGroup = blockSizePerChannel * channels: the source
computes the product in 32-bit unsigned arithmetic, so it wraps
mod 2^32. -/
def dsfBlockGroup (st : DsdState) : Nat :=
  st.format.blockSizePerChannel * st.format.channels % 2 ^ 32

/-- DsdStreamReader::processDsfBlocks; returns the bytes written to the
output buffer alongside the successor state. -/
def processDsfBlocks (st : DsdState) (maxBytes : Nat) :
    List Nat × DsdState :=
  if dsfBlockGroup st = 0 then ([], st)
  else if min (maxBytes / dsfBlockGroup st)
      (st.dataBuf.length / dsfBlockGroup st) = 0 then
    if st.eof = true ∧ st.dataBuf.length > 0 ∧ st.dataRemaining = 0 then
      if dsfTailUsable st maxBytes = 0 then ([], st)
      else dsfEmit st (dsfTailUsable st maxBytes)
    else ([], st)
  else
    dsfEmit st (min (maxBytes / dsfBlockGroup st)
      (st.dataBuf.length / dsfBlockGroup st) * dsfBlockGroup st)

/-- DsdStreamReader::processDffData. -/
def processDffData (st : DsdState) (maxBytes : Nat) :
    List Nat × DsdState :=
  if st.dataBuf.length = 0 then ([], st)
  else if st.format.channels = 0 then ([], st)
  else if min st.dataBuf.length maxBytes / st.format.channels *
      st.format.channels = 0 then ([], st)
  else
    (deinterleaveToPlaynar st.dataBuf
      (min st.dataBuf.length maxBytes / st.format.channels *
        st.format.channels) st.format.channels,
      { st with
        dataBuf := st.dataBuf.drop (min st.dataBuf.length maxBytes /
          st.format.channels * st.format.channels)
        totalBytesOutput := st.totalBytesOutput +
          min st.dataBuf.length maxBytes / st.format.channels *
            st.format.channels })

/-- DsdStreamReader::processRawData delegates to processDffData. -/
def processRawData (st : DsdState) (maxBytes : Nat) :
    List Nat × DsdState :=
  processDffData st maxBytes

/-- DsdStreamReader::readPlanar. -/
def dsdReadPlanar (st : DsdState) (maxBytes : Nat) :
    List Nat × DsdState :=
  if st.state = .done ∨ st.state = .error then ([], st)
  else if st.state ≠ .data then ([], st)
  else if st.formatReady = false then ([], st)
  else
    let step :=
      match st.format.container with
      | .dsf => processDsfBlocks st maxBytes
      | .dff => processDffData st maxBytes
      | .raw => processRawData st maxBytes
    if step.1.length = 0 ∧ step.2.dataBuf.length = 0 ∧ step.2.eof = true then
      (step.1, { step.2 with finished := true, state := .done })
    else step

/-- Operations of C7s quantification: feed, setEof and readPlanar. -/
inductive DsdOp where
  | feed (data : List Nat)
  | setEof
  | readPlanar (maxBytes : Nat)

/-- Execute one operation, recording the bytes a readPlanar returned. -/
def dsdStep (st : DsdState) : DsdOp → List Nat × DsdState
  | .feed d => ([], dsdFeed st d)
  | .setEof => ([], dsdSetEof st)
  | .readPlanar m => dsdReadPlanar st m

/-- Execute a sequence of operations, concatenating all readPlanar
outputs (so the length of the first component is the sum of all
readPlanar return values). -/
def runDsdOps (st : DsdState) : List DsdOp → List Nat × DsdState
  | [] => ([], st)
  | op :: ops =>
      let s := dsdStep st op
      let r := runDsdOps s.2 ops
      (s.1 ++ r.1, r.2)

/-- Length of the de-interleaved output when the byte count is
channel-aligned and available. -/
theorem deinterleave_length (src : List Nat) (n ch : Nat) (hch : 1 ≤ ch)
    (hdvd : ch ∣ n) (hn : n ≤ src.length) :
    (deinterleaveToPlaynar src n ch).length = n := by
  unfold deinterleaveToPlaynar
  by_cases h2 : ch < 2
  · rw [if_pos h2]
    simp
    omega
  · rw [if_neg h2]
    simp only [List.length_flatten, List.map_map]
    have h1 : ∀ b ∈ (List.range ch).map (List.length ∘ fun c =>
        (List.range (n / ch)).map (fun i => src.getD (i * ch + c) 0)),
        b = n / ch := by
      intro b hb
      simp at hb
      obtain ⟨a, ha, hab⟩ := hb
      omega
    have h2 := List.eq_replicate_of_mem h1
    rw [List.length_map, List.length_range] at h2
    rw [h2, List.sum_replicate, smul_eq_mul, Nat.mul_div_cancel' hdvd]

/-- Indexing the stereo de-interleaved output: the first half holds the
even source bytes, the second half the odd ones. -/
theorem deinterleave_stereo_getD (src : List Nat) (n : Nat)
    (hdvd : 2 ∣ n) (hn : n ≤ src.length) (j : Nat) (hj : j < n / 2) :
    (deinterleaveToPlaynar src n 2).getD j 0 = src.getD (2 * j) 0 ∧
    (deinterleaveToPlaynar src n 2).getD (n / 2 + j) 0 =
      src.getD (2 * j + 1) 0 := by
  have hre : List.range 2 = [0, 1] := rfl
  have hun : deinterleaveToPlaynar src n 2 =
      (List.range (n / 2)).map (fun i => src.getD (i * 2) 0) ++
      (List.range (n / 2)).map (fun i => src.getD (i * 2 + 1) 0) := by
    unfold deinterleaveToPlaynar
    rw [if_neg (by omega), hre]
    simp
  rw [hun]
  have hlen0 : ((List.range (n / 2)).map
      (fun i => src.getD (i * 2) 0)).length = n / 2 := by simp
  constructor
  · rw [List.getD_eq_getElem?_getD, List.getElem?_append_left (by simp [hj]),
      List.getElem?_map]
    simp [List.getElem?_range hj, Nat.mul_comm]
  · rw [List.getD_eq_getElem?_getD,
      List.getElem?_append_right (by simp), List.getElem?_map]
    rw [hlen0, Nat.add_sub_cancel_left]
    simp [List.getElem?_range hj, Nat.mul_comm]

/-- C6: a readPlanar call on a stereo DFF stream de-interleaves the
channel-aligned prefix u = 2 * (min(buffered, requested) / 2) of the
buffered bytes into planar halves: the output has u bytes, its first
half is the even-indexed (left) buffered bytes and its second half the
odd-indexed (right) ones. -/
theorem dff_read_planar_stereo (st : DsdState) (maxBytes : Nat)
    (hstate : st.state = .data) (hready : st.formatReady = true)
    (hcont : st.format.container = .dff) (hch : st.format.channels = 2) :
    (dsdReadPlanar st maxBytes).1.length =
      min st.dataBuf.length maxBytes / 2 * 2 ∧
    ∀ j, j < min st.dataBuf.length maxBytes / 2 →
      (dsdReadPlanar st maxBytes).1.getD j 0 = st.dataBuf.getD (2 * j) 0 ∧
      (dsdReadPlanar st maxBytes).1.getD
          (min st.dataBuf.length maxBytes / 2 * 2 / 2 + j) 0 =
        st.dataBuf.getD (2 * j + 1) 0 := by
  have h1 : (dsdReadPlanar st maxBytes).1 = (processDffData st maxBytes).1 := by
    unfold dsdReadPlanar
    rw [if_neg (by rw [hstate]; simp), if_neg (by rw [hstate]; simp),
      if_neg (by rw [hready]; simp), hcont]
    show (if (processDffData st maxBytes).1.length = 0 ∧
        (processDffData st maxBytes).2.dataBuf.length = 0 ∧
        (processDffData st maxBytes).2.eof = true then
        ((processDffData st maxBytes).1,
          { (processDffData st maxBytes).2 with
            finished := true, state := DsdMachine.done })
      else processDffData st maxBytes).1 = (processDffData st maxBytes).1
    split
    · rfl
    · rfl
  rw [h1]
  unfold processDffData
  by_cases havail : st.dataBuf.length = 0
  · rw [if_pos havail]
    have hmin : min st.dataBuf.length maxBytes = 0 := by omega
    rw [hmin]
    exact ⟨rfl, by intro j hj; simp at hj⟩
  · rw [if_neg havail, if_neg (by rw [hch]; simp), hch]
    by_cases husable : min st.dataBuf.length maxBytes / 2 * 2 = 0
    · rw [if_pos husable, husable]
      refine ⟨rfl, ?_⟩
      intro j hj
      omega
    · rw [if_neg husable]
      have hdvd : 2 ∣ min st.dataBuf.length maxBytes / 2 * 2 := by omega
      have hle : min st.dataBuf.length maxBytes / 2 * 2 ≤ st.dataBuf.length := by
        have := Nat.div_mul_le_self (min st.dataBuf.length maxBytes) 2
        omega
      refine ⟨deinterleave_length st.dataBuf _ 2 (by omega) hdvd hle, ?_⟩
      intro j hj
      have hj2 : j < min st.dataBuf.length maxBytes / 2 * 2 / 2 := by omega
      have := deinterleave_stereo_getD st.dataBuf
        (min st.dataBuf.length maxBytes / 2 * 2) hdvd hle j hj2
      exact this

/-- Concrete S4 state: a parsed stereo DFF stream (DSD128 rate) whose
data buffer holds the 256 interleaved bytes L0 R0 L1 R1 ... with
L i = i and R i = 128 + i. -/
def dffS4State : DsdState :=
  { state := .data
    headerBuf := []
    dataBuf := ((List.range 128).map (fun i => [i, 128 + i])).flatten
    format := { sampleRate := 5644800, channels := 2,
                blockSizePerChannel := 0, totalDsdBytes := 256,
                container := .dff, isLSBFirst := false }
    formatReady := true
    rawDsdConfigured := false
    dataRemaining := 0
    totalBytesOutput := 0
    eof := false
    error := false
    finished := false }

/-- Witness for C6 at the S4 input: read_planar(out, 256) returns 256
bytes, out[j] = L j and out[128 + j] = R j for every j < 128. -/
theorem dff_read_planar_stereo_witness :
    (dsdReadPlanar dffS4State 256).1.length =
      min dffS4State.dataBuf.length 256 / 2 * 2 ∧
    ∀ j, j < min dffS4State.dataBuf.length 256 / 2 →
      (dsdReadPlanar dffS4State 256).1.getD j 0 =
        dffS4State.dataBuf.getD (2 * j) 0 ∧
      (dsdReadPlanar dffS4State 256).1.getD
          (min dffS4State.dataBuf.length 256 / 2 * 2 / 2 + j) 0 =
        dffS4State.dataBuf.getD (2 * j + 1) 0 :=
  dff_read_planar_stereo dffS4State 256 rfl rfl rfl rfl

/-- Container detection leaves the output counter untouched. -/
theorem detectContainer_total (st : DsdState) :
    (detectContainer st).totalBytesOutput = st.totalBytesOutput := by
  unfold detectContainer
  repeat' split
  all_goals rfl

/-- The DSF success tail leaves the output counter untouched. -/
theorem dsfApplyHeader_total (st : DsdState) :
    (dsfApplyHeader st).totalBytesOutput = st.totalBytesOutput := rfl

/-- The DFF success tail leaves the output counter untouched. -/
theorem dffApplyHeader_total (st : DsdState) (sr ch ds dz : Nat) :
    (dffApplyHeader st sr ch ds dz).totalBytesOutput = st.totalBytesOutput :=
  rfl

/-- DSF header parsing leaves the output counter untouched. -/
theorem parseDsfHeader_total (st : DsdState) :
    (parseDsfHeader st).totalBytesOutput = st.totalBytesOutput := by
  unfold parseDsfHeader
  repeat' split
  all_goals first
    | rfl
    | exact dsfApplyHeader_total st

/-- DFF header parsing leaves the output counter untouched. -/
theorem parseDffHeader_total (st : DsdState) :
    (parseDffHeader st).totalBytesOutput = st.totalBytesOutput := by
  unfold parseDffHeader
  repeat' split
  all_goals first
    | rfl
    | apply dffApplyHeader_total

/-- The parser dispatch leaves the output counter untouched. -/
theorem dsdHeaderParse_total (st : DsdState) :
    (dsdHeaderParse st).totalBytesOutput = st.totalBytesOutput := by
  unfold dsdHeaderParse
  repeat' split
  all_goals first
    | rfl
    | exact parseDsfHeader_total st
    | exact parseDffHeader_total st

/-- The header-phase step leaves the output counter untouched. -/
theorem dsdHeaderStep_total (st : DsdState) :
    (dsdHeaderStep st).totalBytesOutput = st.totalBytesOutput := by
  unfold dsdHeaderStep
  rw [dsdHeaderParse_total]
  split
  · exact detectContainer_total st
  · rfl

/-- feed never changes the output counter. -/
theorem dsdFeed_total (st : DsdState) (d : List Nat) :
    (dsdFeed st d).totalBytesOutput = st.totalBytesOutput := by
  unfold dsdFeed
  repeat' split
  all_goals first
    | rfl
    | exact dsdHeaderStep_total _

/-- feed on a reader in the DATA state stays in DATA and keeps the
format. -/
theorem dsdFeed_data (st : DsdState) (d : List Nat) (h : st.state = .data) :
    (dsdFeed st d).state = .data ∧ (dsdFeed st d).format = st.format := by
  unfold dsdFeed
  rw [if_neg (by simp [h]), if_neg (by simp [h]), if_pos h]
  exact ⟨h, rfl⟩

/-- feed on a finished or failed reader is the identity. -/
theorem dsdFeed_done (st : DsdState) (d : List Nat)
    (h : st.state = .done ∨ st.state = .error) : dsdFeed st d = st := by
  unfold dsdFeed
  rw [if_pos h]

/-- Common contract of the three process functions: the format and the
machine state are preserved, the output counter advances by exactly the
number of bytes returned, and that number is a multiple of the channel
count. -/
def ProcessContract (st : DsdState) (p : List Nat × DsdState) : Prop :=
  p.2.format = st.format ∧ p.2.state = st.state ∧
  p.2.totalBytesOutput = st.totalBytesOutput + p.1.length ∧
  st.format.channels ∣ p.1.length

/-- The process contract holds trivially for an empty emission. -/
theorem processContract_nil (st : DsdState) :
    ProcessContract st ([], st) :=
  ⟨rfl, rfl, by simp, dvd_zero _⟩

/-- dsfEmit meets the process contract for an aligned, available byte
count. -/
theorem dsfEmit_contract (st : DsdState) (bytes : Nat)
    (hle : bytes ≤ st.dataBuf.length)
    (hdvd : st.format.channels ∣ bytes) :
    ProcessContract st (dsfEmit st bytes) := by
  have hlen : (st.dataBuf.take bytes).length = bytes := by simp; omega
  exact ⟨rfl, rfl, by simp [dsfEmit, hlen], by simp [dsfEmit, hlen, hdvd]⟩

/-- The tail byte count is channel-aligned and available. -/
theorem dsfTailUsable_ok (st : DsdState) (m : Nat) :
    dsfTailUsable st m ≤ st.dataBuf.length ∧
    st.format.channels ∣ dsfTailUsable st m := by
  unfold dsfTailUsable
  split
  · constructor
    · calc m / st.format.channels * st.format.channels ≤ m :=
            Nat.div_mul_le_self m _
        _ ≤ st.dataBuf.length / st.format.channels * st.format.channels := by
            omega
        _ ≤ st.dataBuf.length := Nat.div_mul_le_self _ _
    · exact dvd_mul_left _ _
  · exact ⟨Nat.div_mul_le_self _ _, dvd_mul_left _ _⟩

/-- processDsfBlocks meets the process contract whenever the 32-bit
blockGroup product does not wrap; when it wraps the emitted byte count
need not be channel-aligned (the C7 refutation below). -/
theorem processDsfBlocks_contract (st : DsdState) (m : Nat)
    (hnw : st.format.blockSizePerChannel * st.format.channels < 2 ^ 32) :
    ProcessContract st (processDsfBlocks st m) := by
  have hbg : dsfBlockGroup st =
      st.format.blockSizePerChannel * st.format.channels :=
    Nat.mod_eq_of_lt hnw
  unfold processDsfBlocks
  repeat' split
  · exact processContract_nil st
  · exact processContract_nil st
  · exact dsfEmit_contract st _ (dsfTailUsable_ok st m).1
      (dsfTailUsable_ok st m).2
  · exact processContract_nil st
  · refine dsfEmit_contract st _ ?_ ?_
    · have h1 : min (m / dsfBlockGroup st)
          (st.dataBuf.length / dsfBlockGroup st) * dsfBlockGroup st ≤
          st.dataBuf.length / dsfBlockGroup st * dsfBlockGroup st :=
        Nat.mul_le_mul_right _ (min_le_right _ _)
      exact le_trans h1 (Nat.div_mul_le_self _ _)
    · rw [hbg, ← Nat.mul_assoc]
      exact dvd_mul_left _ _

/-- processDffData meets the process contract. -/
theorem processDffData_contract (st : DsdState) (m : Nat) :
    ProcessContract st (processDffData st m) := by
  unfold processDffData
  repeat' split
  · exact processContract_nil st
  · exact processContract_nil st
  · exact processContract_nil st
  · rename_i hne hch hu
    have hch1 : 1 ≤ st.format.channels := by omega
    have hdvd : st.format.channels ∣ min st.dataBuf.length m /
        st.format.channels * st.format.channels := dvd_mul_left _ _
    have hule : min st.dataBuf.length m / st.format.channels *
        st.format.channels ≤ st.dataBuf.length := by
      calc min st.dataBuf.length m / st.format.channels *
            st.format.channels ≤ min st.dataBuf.length m :=
            Nat.div_mul_le_self _ _
        _ ≤ st.dataBuf.length := min_le_left _ _
    have hlen := deinterleave_length st.dataBuf _ st.format.channels hch1
      hdvd hule
    exact ⟨rfl, rfl, by simp [hlen], by rw [hlen]; exact hdvd⟩

/-- readPlanar on a non-DATA or not-yet-ready reader returns nothing and
changes nothing. -/
theorem dsdReadPlanar_idle (st : DsdState) (m : Nat)
    (h : st.state ≠ .data ∨ st.formatReady = false) :
    dsdReadPlanar st m = ([], st) := by
  unfold dsdReadPlanar
  by_cases h1 : st.state = .done ∨ st.state = .error
  · rw [if_pos h1]
  · rw [if_neg h1]
    by_cases h2 : st.state ≠ .data
    · rw [if_pos h2]
    · rw [if_neg h2]
      have h3 : st.formatReady = false := by tauto
      rw [if_pos h3]

/-- A 94-byte DSF stream whose fmt chunk declares 6 channels and
blockSizePerChannel = 715827883: every parseDsfHeader validation passes
(formatID 0, channel count within 1..8, block size nonzero), yet
6 * 715827883 = 2^32 + 2, so the source's uint32 blockGroup wraps to 2.
The data chunk declares 2 payload bytes (chunk size 14), both present
at the end of the stream. -/
def dsfWrapBytes : List Nat :=
  [68, 83, 68, 32,
   28, 0, 0, 0, 0, 0, 0, 0,
   94, 0, 0, 0, 0, 0, 0, 0,
   0, 0, 0, 0, 0, 0, 0, 0,
   102, 109, 116, 32,
   52, 0, 0, 0, 0, 0, 0, 0,
   1, 0, 0, 0,
   0, 0, 0, 0,
   0, 0, 0, 0,
   6, 0, 0, 0,
   0, 17, 43, 0,
   1, 0, 0, 0,
   16, 0, 0, 0, 0, 0, 0, 0,
   171, 170, 170, 42,
   0, 0, 0, 0,
   100, 97, 116, 97,
   14, 0, 0, 0, 0, 0, 0, 0,
   7, 9]

/-- C7: refuted by the uint32 wrap. Feeding the DSF stream above and
calling readPlanar once leaves a reader whose format has 6 channels
but whose total output is 2 bytes: processDsfBlocks computes
blockGroup = blockSizePerChannel * channels in 32-bit unsigned
arithmetic, 6 * 715827883 wraps to 2, and the emitted group of 2 bytes
is not a whole multiple of the 6-channel count, so totalBytesOutput
(the sum of all readPlanar return values) violates the invariant. -/
theorem dsd_blockgroup_wrap_breaks_alignment :
    (runDsdOps dsdInit
      [DsdOp.feed dsfWrapBytes, DsdOp.readPlanar 2]).2.format.channels
      = 6 ∧
    (runDsdOps dsdInit
      [DsdOp.feed dsfWrapBytes, DsdOp.readPlanar 2]).1.length = 2 ∧
    (runDsdOps dsdInit
      [DsdOp.feed dsfWrapBytes, DsdOp.readPlanar 2]).2.totalBytesOutput
      = 2 ∧
    ¬ ((runDsdOps dsdInit
        [DsdOp.feed dsfWrapBytes, DsdOp.readPlanar 2]).2.format.channels ∣
      (runDsdOps dsdInit
        [DsdOp.feed dsfWrapBytes, DsdOp.readPlanar 2]).1.length) := by
  decide

/-- readPlanar on an active reader with a non-wrapping DSF blockGroup:
format preserved, the output counter advances by the returned byte
count, that count is a multiple of the channel count, and the machine
stays in DATA or moves to DONE. -/
theorem dsdReadPlanar_active (st : DsdState) (m : Nat)
    (hnw : st.format.blockSizePerChannel * st.format.channels < 2 ^ 32)
    (h : st.state = .data) (hr : st.formatReady = true) :
    (dsdReadPlanar st m).2.format = st.format ∧
    (dsdReadPlanar st m).2.totalBytesOutput =
      st.totalBytesOutput + (dsdReadPlanar st m).1.length ∧
    st.format.channels ∣ (dsdReadPlanar st m).1.length ∧
    ((dsdReadPlanar st m).2.state = .data ∨
      (dsdReadPlanar st m).2.state = .done) := by
  have hcontract : ProcessContract st
      (match st.format.container with
       | .dsf => processDsfBlocks st m
       | .dff => processDffData st m
       | .raw => processRawData st m) := by
    cases st.format.container
    · exact processDsfBlocks_contract st m hnw
    · exact processDffData_contract st m
    · exact processDffData_contract st m
  have hunfold : dsdReadPlanar st m =
      (if (match st.format.container with
          | .dsf => processDsfBlocks st m
          | .dff => processDffData st m
          | .raw => processRawData st m).1.length = 0 ∧
          (match st.format.container with
          | .dsf => processDsfBlocks st m
          | .dff => processDffData st m
          | .raw => processRawData st m).2.dataBuf.length = 0 ∧
          (match st.format.container with
          | .dsf => processDsfBlocks st m
          | .dff => processDffData st m
          | .raw => processRawData st m).2.eof = true then
        ((match st.format.container with
          | .dsf => processDsfBlocks st m
          | .dff => processDffData st m
          | .raw => processRawData st m).1,
          { (match st.format.container with
            | .dsf => processDsfBlocks st m
            | .dff => processDffData st m
            | .raw => processRawData st m).2 with
            finished := true, state := DsdMachine.done })
      else
        match st.format.container with
        | .dsf => processDsfBlocks st m
        | .dff => processDffData st m
        | .raw => processRawData st m) := by
    unfold dsdReadPlanar
    rw [if_neg (by simp [h]), if_neg (by simp [h]), if_neg (by simp [hr])]
  rw [hunfold]
  set step := (match st.format.container with
    | .dsf => processDsfBlocks st m
    | .dff => processDffData st m
    | .raw => processRawData st m) with hstep
  obtain ⟨hf, hs, ht, hd⟩ := hcontract
  by_cases hfin : step.1.length = 0 ∧ step.2.dataBuf.length = 0 ∧
      step.2.eof = true
  · rw [if_pos hfin]
    exact ⟨hf, ht, hd, Or.inr rfl⟩
  · rw [if_neg hfin]
    exact ⟨hf, ht, hd, Or.inl (by rw [hs, h])⟩

-- ==========================================================
-- PcmDecoder.cpp (container PCM decoder) and FlacDecoder flush
-- ==========================================================

/-- DecodedFormat of Decoder.h. -/
structure DecodedFormat where
  sampleRate : Nat := 0
  bitDepth : Nat := 0
  channels : Nat := 0
  totalSamples : Nat := 0
  deriving Repr, DecidableEq

/-- Parser states of PcmDecoder. -/
inductive PcmMachine where
  | detect
  | parseWav
  | parseAiff
  | data
  | done
  | error
  deriving Repr, DecidableEq

/-- Member state of PcmDecoder (in-class initializers as defaults). -/
structure PcmState where
  state : PcmMachine := .detect
  headerBuf : List Nat := []
  dataBuf : List Nat := []
  format : DecodedFormat := {}
  formatReady : Bool := false
  bigEndian : Bool := false
  shift : Int := 0
  dataRemaining : Nat := 0
  rawPcmConfigured : Bool := false
  eof : Bool := false
  error : Bool := false
  finished : Bool := false
  decodedSamples : Nat := 0
  deriving Repr, DecidableEq

/-- Freshly constructed PcmDecoder. -/
def pcmInit : PcmState := {}

/-- PcmDecoder::flush resets every member to its initial value. -/
def pcmFlush (_st : PcmState) : PcmState :=
  { state := .detect
    headerBuf := []
    dataBuf := []
    format := {}
    formatReady := false
    bigEndian := false
    shift := 0
    dataRemaining := 0
    rawPcmConfigured := false
    eof := false
    error := false
    finished := false
    decodedSamples := 0 }

/-- PcmDecoder::feed. -/
def pcmFeed (st : PcmState) (data : List Nat) : PcmState :=
  if st.state = .detect ∨ st.state = .parseWav ∨ st.state = .parseAiff then
    { st with headerBuf := st.headerBuf ++ data }
  else if st.state = .data then
    { st with dataBuf := st.dataBuf ++ data }
  else st

/-- PcmDecoder::setEof. -/
def pcmSetEof (st : PcmState) : PcmState := { st with eof := true }

/-- PcmDecoder::setRawPcmFormat. -/
def setRawPcmFormat (st : PcmState) (sampleRate bitDepth channels : Nat)
    (bigEndian : Bool) : PcmState :=
  { st with
    format := { sampleRate := sampleRate, bitDepth := bitDepth,
                channels := channels, totalSamples := 0 }
    bigEndian := bigEndian
    shift := 32 - (bitDepth : Int)
    rawPcmConfigured := true }

/-- PcmDecoder::detectContainer (RIFF = 82 73 70 70, FORM = 70 79 82 77). -/
def pcmDetectContainer (st : PcmState) : PcmState :=
  if st.headerBuf.length < 4 then st
  else if magic4 st.headerBuf 0 82 73 70 70 then { st with state := .parseWav }
  else if magic4 st.headerBuf 0 70 79 82 77 then { st with state := .parseAiff }
  else if st.rawPcmConfigured then
    { st with
      formatReady := true
      dataRemaining := 0
      dataBuf := st.dataBuf ++ st.headerBuf
      headerBuf := []
      state := .data }
  else { st with state := .error, error := true }

/-- Result of the WAV chunk scan. -/
inductive WavScan where
  | needMore
  | failed
  | ok (channels sampleRate bitDepth dataRemaining dataStart : Nat)
  deriving Repr, DecidableEq

/-- Chunk loop of PcmDecoder::parseWavHeader (fmt_ = 102 109 116 32,
data = 100 97 116 97). The C++ mutates the member format fields while
scanning; since no control path reads them before the scan succeeds,
the model folds them into the success result. Fuel starts at the buffer
length and every iteration advances pos by at least 8. -/
def wavChunkScan (d : List Nat) :
    Nat → Nat → Bool → Bool → Nat → Nat → Nat → Nat → Nat → WavScan
  | 0, _, fFmt, fData, ch, sr, bits, dataRem, dataStart =>
      if fFmt ∧ fData then .ok ch sr bits dataRem dataStart else .needMore
  | fuel + 1, pos, fFmt, fData, ch, sr, bits, dataRem, dataStart =>
      if pos + 8 > d.length then
        if fFmt ∧ fData then .ok ch sr bits dataRem dataStart else .needMore
      else
        if magic4 d pos 102 109 116 32 then
          if pos + 8 + readLE32 d (pos + 4) > d.length then .needMore
          else if readLE16 d (pos + 8) = 0xFFFE ∧ readLE32 d (pos + 4) < 40
            then .failed
          else if (if readLE16 d (pos + 8) = 0xFFFE
              then readLE16 d (pos + 8 + 24) else readLE16 d (pos + 8)) ≠ 1 ∧
            (if readLE16 d (pos + 8) = 0xFFFE
              then readLE16 d (pos + 8 + 24) else readLE16 d (pos + 8)) ≠ 3
            then .failed
          else
            if fData then
              .ok (readLE16 d (pos + 10)) (readLE32 d (pos + 12))
                (if readLE16 d (pos + 8) = 0xFFFE ∧
                    readLE16 d (pos + 8 + 18) > 0
                  then readLE16 d (pos + 8 + 18) else readLE16 d (pos + 22))
                dataRem dataStart
            else
              wavChunkScan d fuel
                (pos + 8 + readLE32 d (pos + 4) +
                  (if readLE32 d (pos + 4) % 2 = 1 then 1 else 0))
                true fData (readLE16 d (pos + 10)) (readLE32 d (pos + 12))
                (if readLE16 d (pos + 8) = 0xFFFE ∧
                    readLE16 d (pos + 8 + 18) > 0
                  then readLE16 d (pos + 8 + 18) else readLE16 d (pos + 22))
                dataRem dataStart
        else if magic4 d pos 100 97 116 97 then
          if fFmt then
            .ok ch sr bits (readLE32 d (pos + 4)) (pos + 8)
          else
            wavChunkScan d fuel
              (pos + 8 + readLE32 d (pos + 4) +
                (if readLE32 d (pos + 4) % 2 = 1 then 1 else 0))
              fFmt true ch sr bits (readLE32 d (pos + 4)) (pos + 8)
        else
          wavChunkScan d fuel
            (pos + 8 + readLE32 d (pos + 4) +
              (if readLE32 d (pos + 4) % 2 = 1 then 1 else 0))
            fFmt fData ch sr bits dataRem dataStart

/-- PcmDecoder::parseWavHeader (RIFF at 0, WAVE = 87 65 86 69 at 8).
totalSamples uses Nat division, which is 0 when the frame size is 0
where the C++ would divide by zero. -/
def parseWavHeader (st : PcmState) : PcmState :=
  if st.headerBuf.length < 44 then st
  else if ¬ (magic4 st.headerBuf 0 82 73 70 70 &&
      magic4 st.headerBuf 8 87 65 86 69) then
    { st with state := .error, error := true }
  else
    match wavChunkScan st.headerBuf st.headerBuf.length 12 false false
        0 0 0 0 0 with
    | .needMore => st
    | .failed => { st with state := .error, error := true }
    | .ok ch sr bits dataRem dataStart =>
        { st with
          format := { sampleRate := sr, bitDepth := bits, channels := ch,
                      totalSamples := dataRem / (bits / 8 * ch) }
          bigEndian := false
          shift := 32 - (bits : Int)
          dataRemaining := dataRem
          formatReady := true
          dataBuf := st.dataBuf ++ st.headerBuf.drop dataStart
          headerBuf := []
          state := .data }

/-- Result of the AIFF chunk scan. -/
inductive AiffScan where
  | needMore
  | ok (channels sampleRate bitDepth numFrames dataRemaining dataStart : Nat)
  deriving Repr, DecidableEq

/-- Chunk loop of PcmDecoder::parseAiffHeader (COMM = 67 79 77 77,
SSND = 83 83 78 68). The 80-bit extended sample rate is interpreted by
the floating-point function extendedToUint32, taken as the parameter
ext over its ten input bytes. The uint32 subtraction chunkSize - 8 is
modelled with the explicit unsigned wrap. -/
def aiffChunkScan (ext : List Nat → Nat) (d : List Nat) :
    Nat → Nat → Bool → Bool → Nat → Nat → Nat → Nat → Nat → Nat → AiffScan
  | 0, _, fComm, fSsnd, ch, sr, bits, nf, dataRem, dataStart =>
      if fComm ∧ fSsnd then .ok ch sr bits nf dataRem dataStart
      else .needMore
  | fuel + 1, pos, fComm, fSsnd, ch, sr, bits, nf, dataRem, dataStart =>
      if pos + 8 > d.length then
        if fComm ∧ fSsnd then .ok ch sr bits nf dataRem dataStart
        else .needMore
      else
        if magic4 d pos 67 79 77 77 then
          if pos + 8 + readBE32 d (pos + 4) > d.length then .needMore
          else
            if fSsnd then
              .ok (readBE16 d (pos + 8)) (ext ((d.drop (pos + 16)).take 10))
                (readBE16 d (pos + 14)) (readBE32 d (pos + 10))
                dataRem dataStart
            else
              aiffChunkScan ext d fuel
                (pos + 8 + readBE32 d (pos + 4) +
                  (if readBE32 d (pos + 4) % 2 = 1 then 1 else 0))
                true fSsnd (readBE16 d (pos + 8))
                (ext ((d.drop (pos + 16)).take 10)) (readBE16 d (pos + 14))
                (readBE32 d (pos + 10)) dataRem dataStart
        else if magic4 d pos 83 83 78 68 then
          if pos + 16 > d.length then .needMore
          else
            if fComm then
              .ok ch sr bits nf ((readBE32 d (pos + 4) + 2 ^ 32 - 8) % 2 ^ 32)
                (pos + 16 + readBE32 d (pos + 8))
            else
              aiffChunkScan ext d fuel
                (pos + 8 + readBE32 d (pos + 4) +
                  (if readBE32 d (pos + 4) % 2 = 1 then 1 else 0))
                fComm true ch sr bits nf
                ((readBE32 d (pos + 4) + 2 ^ 32 - 8) % 2 ^ 32)
                (pos + 16 + readBE32 d (pos + 8))
        else
          aiffChunkScan ext d fuel
            (pos + 8 + readBE32 d (pos + 4) +
              (if readBE32 d (pos + 4) % 2 = 1 then 1 else 0))
            fComm fSsnd ch sr bits nf dataRem dataStart

/-- PcmDecoder::parseAiffHeader (FORM at 0, AIFF = 65 73 70 70 or
AIFC = 65 73 70 67 at 8). -/
def parseAiffHeader (ext : List Nat → Nat) (st : PcmState) : PcmState :=
  if st.headerBuf.length < 46 then st
  else if ¬ (magic4 st.headerBuf 0 70 79 82 77 &&
      (magic4 st.headerBuf 8 65 73 70 70 || magic4 st.headerBuf 8 65 73 70 67))
    then { st with state := .error, error := true }
  else
    match aiffChunkScan ext st.headerBuf st.headerBuf.length 12 false false
        0 0 0 0 0 0 with
    | .needMore => st
    | .ok ch sr bits nf dataRem dataStart =>
        { st with
          format := { sampleRate := sr, bitDepth := bits, channels := ch,
                      totalSamples := nf }
          bigEndian := true
          shift := 32 - (bits : Int)
          dataRemaining := dataRem
          formatReady := true
          dataBuf := st.dataBuf ++ st.headerBuf.drop dataStart
          headerBuf := []
          state := .data }

/-- Bytes per frame of the parsed format (bitDepth / 8 * channels). -/
def pcmBytesPerFrame (st : PcmState) : Nat :=
  st.format.bitDepth / 8 * st.format.channels

/-- Decodable bytes: the data buffer clamped by a bounded data chunk. -/
def pcmAvailBytes (st : PcmState) : Nat :=
  if st.dataRemaining > 0 then min st.dataBuf.length st.dataRemaining
  else st.dataBuf.length

/-- Whole frames this call will convert. -/
def pcmFramesToConvert (st : PcmState) (maxFrames : Nat) : Nat :=
  min (pcmAvailBytes st / pcmBytesPerFrame st) maxFrames

/-- Conversion tail of PcmDecoder::readDecoded: convert, consume, track
the data chunk and set finished when its last byte is consumed. -/
def pcmConvertStep (st : PcmState) (framesToConvert : Nat) :
    Nat × List Int × PcmState :=
  (framesToConvert,
   pcmConvertSamples st.bigEndian st.format.bitDepth
     (st.dataBuf.take (framesToConvert * pcmBytesPerFrame st)),
   { st with
     dataBuf := st.dataBuf.drop (framesToConvert * pcmBytesPerFrame st)
     dataRemaining := if st.dataRemaining > 0 then
       st.dataRemaining - framesToConvert * pcmBytesPerFrame st
       else st.dataRemaining
     finished := if st.dataRemaining > 0 ∧
         st.dataRemaining - framesToConvert * pcmBytesPerFrame st = 0
       then true else st.finished
     decodedSamples := st.decodedSamples + framesToConvert })

/-- Parse dispatch of readDecoded. -/
def pcmParsePhase (ext : List Nat → Nat) (st1 : PcmState) : PcmState :=
  if st1.state = .parseWav then parseWavHeader st1
  else if st1.state = .parseAiff then parseAiffHeader ext st1
  else st1

/-- PcmDecoder::readDecoded, returning (frame count, samples, state). -/
def pcmReadDecoded (ext : List Nat → Nat) (st : PcmState) (maxFrames : Nat) :
    Nat × List Int × PcmState :=
  if st.error = true ∨ st.finished = true then (0, [], st)
  else if st.state = .detect ∧ ((pcmDetectContainer st).state = .detect ∨
      (pcmDetectContainer st).state = .error) then
    (0, [], pcmDetectContainer st)
  else if (pcmParsePhase ext (if st.state = .detect
      then pcmDetectContainer st else st)).state ≠ .data then
    (0, [], pcmParsePhase ext (if st.state = .detect
      then pcmDetectContainer st else st))
  else if pcmBytesPerFrame (pcmParsePhase ext (if st.state = .detect
      then pcmDetectContainer st else st)) = 0 then
    (0, [], pcmParsePhase ext (if st.state = .detect
      then pcmDetectContainer st else st))
  else if pcmFramesToConvert (pcmParsePhase ext (if st.state = .detect
      then pcmDetectContainer st else st)) maxFrames = 0 then
    if (pcmParsePhase ext (if st.state = .detect
        then pcmDetectContainer st else st)).eof = true then
      (0, [], { pcmParsePhase ext (if st.state = .detect
        then pcmDetectContainer st else st) with finished := true })
    else
      (0, [], pcmParsePhase ext (if st.state = .detect
        then pcmDetectContainer st else st))
  else
    pcmConvertStep (pcmParsePhase ext (if st.state = .detect
      then pcmDetectContainer st else st))
      (pcmFramesToConvert (pcmParsePhase ext (if st.state = .detect
        then pcmDetectContainer st else st)) maxFrames)

/-- Operations of the decoder interface used by C8 and C9. -/
inductive PcmOp where
  | feed (data : List Nat)
  | setEof
  | setRawPcmFormat (sampleRate bitDepth channels : Nat) (bigEndian : Bool)
  | readDecoded (maxFrames : Nat)

/-- Execute one decoder operation, recording decoded output. -/
def pcmStep (ext : List Nat → Nat) (st : PcmState) :
    PcmOp → List Int × PcmState
  | .feed d => ([], pcmFeed st d)
  | .setEof => ([], pcmSetEof st)
  | .setRawPcmFormat sr bits ch be => ([], setRawPcmFormat st sr bits ch be)
  | .readDecoded m =>
      ((pcmReadDecoded ext st m).2.1, (pcmReadDecoded ext st m).2.2)

/-- Run a sequence of decoder operations, collecting all decoded
output. -/
def pcmRun (ext : List Nat → Nat) (st : PcmState) :
    List PcmOp → List (List Int) × PcmState
  | [] => ([], st)
  | op :: ops =>
      ((pcmStep ext st op).1 :: (pcmRun ext (pcmStep ext st op).2 ops).1,
        (pcmRun ext (pcmStep ext st op).2 ops).2)

/-- Member state of FlacDecoder (FlacDecoder.h); the libFLAC handle is
abstracted to whether m_decoder is non-null. -/
structure FlacState where
  decoder : Bool := false
  inputBuffer : List Nat := []
  inputPos : Nat := 0
  eof : Bool := false
  outputBuffer : List Int := []
  outputPos : Nat := 0
  format : DecodedFormat := {}
  formatReady : Bool := false
  shift : Int := 0
  tellOffset : Nat := 0
  confirmedAbsolutePos : Nat := 0
  initialized : Bool := false
  metadataDone : Bool := false
  error : Bool := false
  finished : Bool := false
  decodedSamples : Nat := 0
  metadataRetries : Nat := 0
  deriving Repr, DecidableEq

/-- Freshly constructed FlacDecoder. -/
def flacInit : FlacState := {}

/-- FlacDecoder::flush deletes the libFLAC decoder and resets every
member to its initial value. -/
def flacFlush (_st : FlacState) : FlacState :=
  { decoder := false
    inputBuffer := []
    inputPos := 0
    eof := false
    outputBuffer := []
    outputPos := 0
    format := {}
    formatReady := false
    shift := 0
    tellOffset := 0
    confirmedAbsolutePos := 0
    initialized := false
    metadataDone := false
    error := false
    finished := false
    decodedSamples := 0
    metadataRetries := 0 }

/-- pcmDetectContainer never touches finished or eof. -/
theorem pcmDetectContainer_preserves (s : PcmState) :
    (pcmDetectContainer s).finished = s.finished ∧
    (pcmDetectContainer s).eof = s.eof := by
  unfold pcmDetectContainer
  repeat' split
  all_goals exact ⟨rfl, rfl⟩

/-- parseWavHeader never touches finished or eof. -/
theorem parseWavHeader_preserves (s : PcmState) :
    (parseWavHeader s).finished = s.finished ∧
    (parseWavHeader s).eof = s.eof := by
  unfold parseWavHeader
  repeat' split
  all_goals exact ⟨rfl, rfl⟩

/-- parseAiffHeader never touches finished or eof. -/
theorem parseAiffHeader_preserves (ext : List Nat → Nat) (s : PcmState) :
    (parseAiffHeader ext s).finished = s.finished ∧
    (parseAiffHeader ext s).eof = s.eof := by
  unfold parseAiffHeader
  repeat' split
  all_goals exact ⟨rfl, rfl⟩

/-- The parse dispatch never touches finished or eof. -/
theorem pcmParsePhase_preserves (ext : List Nat → Nat) (s : PcmState) :
    (pcmParsePhase ext s).finished = s.finished ∧
    (pcmParsePhase ext s).eof = s.eof := by
  unfold pcmParsePhase
  split
  · exact parseWavHeader_preserves _
  · split
    · exact parseAiffHeader_preserves _ _
    · exact ⟨rfl, rfl⟩

/-- First component of the conversion step. -/
theorem pcmConvertStep_fst (s : PcmState) (f : Nat) :
    (pcmConvertStep s f).1 = f := rfl

/-- Finished flag after the conversion step. -/
theorem pcmConvertStep_finished (s : PcmState) (f : Nat) :
    (pcmConvertStep s f).2.2.finished =
      if s.dataRemaining > 0 ∧
          s.dataRemaining - f * pcmBytesPerFrame s = 0
        then true else s.finished := rfl

/-- Data chunk counter after the conversion step. -/
theorem pcmConvertStep_dataRemaining (s : PcmState) (f : Nat) :
    (pcmConvertStep s f).2.2.dataRemaining =
      if s.dataRemaining > 0
        then s.dataRemaining - f * pcmBytesPerFrame s
        else s.dataRemaining := rfl

/-- A 49-byte WAV stream: RIFF/WAVE, a 16-byte PCM fmt chunk (2 ch,
44100 Hz, 16-bit), and a data chunk declaring 5 bytes of which all 5
are present — one whole 4-byte frame plus one stray byte. -/
def wav5Bytes : List Nat :=
  [82, 73, 70, 70, 37, 0, 0, 0, 87, 65, 86, 69,
   102, 109, 116, 32, 16, 0, 0, 0,
   1, 0, 2, 0, 68, 172, 0, 0, 16, 177, 2, 0, 4, 0, 16, 0,
   100, 97, 116, 97, 5, 0, 0, 0,
   1, 2, 3, 4, 5]

/-- C8 counterexample: feed the 49-byte WAV above, signal EOF, then
call readDecoded twice. The first call converts the single whole frame
(data chunk not yet consumed: 1 of 5 bytes remains), the second call
converts zero frames and, because EOF is set, marks the decoder
finished — even though one undecodable stray byte is still buffered
and the data chunk's byte count (1 byte) has not been fully consumed.
This refutes the claim that finishing requires either (a) EOF with no
bytes remaining buffered or (b) a fully consumed data chunk. -/
theorem pcm_finish_with_partial_frame_buffered :
    (pcmRun (fun _ => 0) pcmInit
      [.feed wav5Bytes, .setEof, .readDecoded 4, .readDecoded 4]).2.finished
      = true ∧
    (pcmRun (fun _ => 0) pcmInit
      [.feed wav5Bytes, .setEof, .readDecoded 4, .readDecoded 4]).2.eof
      = true ∧
    (pcmRun (fun _ => 0) pcmInit
      [.feed wav5Bytes, .setEof, .readDecoded 4, .readDecoded 4]).2.dataBuf
      = [5] ∧
    (pcmRun (fun _ => 0) pcmInit
      [.feed wav5Bytes, .setEof, .readDecoded 4, .readDecoded 4]).2.dataRemaining
      = 1 := by
  decide

/-- C8 (amended): PcmDecoder sets finished only inside readDecoded:
feed and setEof never change it, and a readDecoded call that newly
reports finished did so either because EOF had been signalled and the
call converted zero frames (regardless of stray buffered bytes), or
because the call converted at least one frame and consumed the bounded
data chunk down to zero bytes. In particular an empty buffer before
EOF never finishes the decoder. -/
theorem pcm_finished_only_eof_or_chunk_consumed (ext : List Nat → Nat)
    (st : PcmState) (maxFrames : Nat) (d : List Nat) :
    (pcmFeed st d).finished = st.finished ∧
    (pcmSetEof st).finished = st.finished ∧
    ((pcmReadDecoded ext st maxFrames).2.2.finished = true →
      st.finished = true ∨
      (st.eof = true ∧ (pcmReadDecoded ext st maxFrames).1 = 0) ∨
      (0 < (pcmReadDecoded ext st maxFrames).1 ∧
        (pcmReadDecoded ext st maxFrames).2.2.dataRemaining = 0)) := by
  refine ⟨?_, rfl, ?_⟩
  · unfold pcmFeed
    repeat' split
    all_goals rfl
  · have hdet := pcmDetectContainer_preserves st
    unfold pcmReadDecoded
    set X := (if st.state = PcmMachine.detect then pcmDetectContainer st
      else st) with hX
    set P := pcmParsePhase ext X with hP
    have hXf : X.finished = st.finished := by
      rw [hX]
      split
      · exact hdet.1
      · rfl
    have hXe : X.eof = st.eof := by
      rw [hX]
      split
      · exact hdet.2
      · rfl
    have hPf : P.finished = st.finished := by
      rw [hP, (pcmParsePhase_preserves ext X).1, hXf]
    have hPe : P.eof = st.eof := by
      rw [hP, (pcmParsePhase_preserves ext X).2, hXe]
    by_cases h1 : st.error = true ∨ st.finished = true
    · rw [if_pos h1]
      intro h
      exact Or.inl h
    · rw [if_neg h1]
      by_cases h2 : st.state = PcmMachine.detect ∧
          ((pcmDetectContainer st).state = PcmMachine.detect ∨
            (pcmDetectContainer st).state = PcmMachine.error)
      · rw [if_pos h2]
        intro h
        exact Or.inl (hdet.1 ▸ h)
      · rw [if_neg h2]
        by_cases h3 : P.state ≠ PcmMachine.data
        · rw [if_pos h3]
          intro h
          exact Or.inl (hPf ▸ h)
        · rw [if_neg h3]
          by_cases h4 : pcmBytesPerFrame P = 0
          · rw [if_pos h4]
            intro h
            exact Or.inl (hPf ▸ h)
          · rw [if_neg h4]
            by_cases h5 : pcmFramesToConvert P maxFrames = 0
            · rw [if_pos h5]
              by_cases h6 : P.eof = true
              · rw [if_pos h6]
                intro _
                exact Or.inr (Or.inl ⟨hPe ▸ h6, rfl⟩)
              · rw [if_neg h6]
                intro h
                exact Or.inl (hPf ▸ h)
            · rw [if_neg h5]
              rw [pcmConvertStep_finished, pcmConvertStep_fst,
                pcmConvertStep_dataRemaining]
              intro h
              by_cases hc : P.dataRemaining > 0 ∧
                  P.dataRemaining -
                    pcmFramesToConvert P maxFrames * pcmBytesPerFrame P = 0
              · refine Or.inr (Or.inr ⟨Nat.pos_of_ne_zero h5, ?_⟩)
                rw [if_pos hc.1]
                exact hc.2
              · rw [if_neg hc] at h
                exact Or.inl (hPf ▸ h)

/-- Decoder state after feeding the 49-byte WAV, signalling EOF and
converting the single whole frame: one stray data byte buffered, one
chunk byte outstanding, not yet finished. -/
def pcmPreFinishState : PcmState :=
  (pcmRun (fun _ => 0) pcmInit
    [.feed wav5Bytes, .setEof, .readDecoded 4]).2

/-- Witness: on the concrete pre-finish WAV state the next readDecoded
call reports finished, and the characterization theorem yields the
EOF-with-zero-frames case. -/
theorem pcm_finished_only_eof_or_chunk_consumed_witness :
    pcmPreFinishState.finished = true ∨
    (pcmPreFinishState.eof = true ∧
      (pcmReadDecoded (fun _ => 0) pcmPreFinishState 4).1 = 0) ∨
    (0 < (pcmReadDecoded (fun _ => 0) pcmPreFinishState 4).1 ∧
      (pcmReadDecoded (fun _ => 0) pcmPreFinishState 4).2.2.dataRemaining
        = 0) :=
  (pcm_finished_only_eof_or_chunk_consumed (fun _ => 0) pcmPreFinishState 4
    []).2.2 (by decide)

/-- C9: flush restores the freshly-constructed decoder state, for both
PcmDecoder and FlacDecoder, so replaying any operation sequence (feed,
setEof, setRawPcmFormat, readDecoded) after a flush produces output
identical to a run on a fresh decoder. -/
theorem decoder_flush_replay (ext : List Nat → Nat) (ops : List PcmOp)
    (s : PcmState) (fs : FlacState) :
    pcmFlush s = pcmInit ∧
    pcmRun ext (pcmFlush s) ops = pcmRun ext pcmInit ops ∧
    flacFlush fs = flacInit :=
  ⟨rfl, rfl, rfl⟩

end Slim2Diretta

